import Mathlib

/-!
A shallow embedding of the mesh-network packet simulator (`mesh.py`):
the `Packet`, `Node` and `Mesh` classes, per-node DFS topology enumeration,
route finding with per-tick avoidance memory, transmission/reception, the
per-node retry loop and the mesh tick scheduler.

Python's in-place mutation is rendered as explicit state passing on a `Mesh`
value; uncaught Python exceptions (IndexError / ValueError / KeyError) are
rendered as an explicit `Flow.crash` result carrying the state at the point
of the raise; the two unbounded recursions (the DFS in `__generate_routes`
and the retry loop in `Node.run`) are given explicit fuel that is proved
sufficient on well-formed inputs.
-/

namespace MeshSim

abbrev NodeId := String

abbrev Route := List NodeId

/-- Packet types: Python uses the strings "data" and "ACK". -/
inductive PacketType
  | data
  | ack
deriving Repr, DecidableEq

/-- The `Packet` class: a message in flight. -/
structure Packet where
  pdata : Option String := none
  packet_type : PacketType
  source : NodeId
  destination : NodeId
  routing : Route := []
  path : Route := []
deriving Repr, DecidableEq

/-- The `Node` class.  The Python back-reference to the mesh is rendered by
passing the `Mesh` explicitly to every operation. -/
structure Node where
  node_id : NodeId
  status : Bool := true
  received : Bool := false
  links : List NodeId
  topology : List Route := []
  buffer : List Packet := []
  failed : List (NodeId × NodeId) := []
deriving Repr, DecidableEq

/-- The `Mesh` class.  `nodes` is kept in insertion order (Python inserts the
JSON keys in sorted order and dict iteration preserves insertion order). -/
structure Mesh where
  nodes : List Node
  dead_links : List (NodeId × NodeId) := []
  tick : Nat := 0
  actions : List String := []
  fail_chance_node : Nat := 0
  fail_chance_link : Nat := 0
  hops : List Nat := []
  congestion : List Rat := []
  errors : Nat := 0
  unreached : Nat := 0
  round_trip : Nat := 0
deriving Repr, DecidableEq

/-- Outcome marker for operations that can raise in Python (`crash`) or whose
Lean model ran out of fuel (`fuelOut`, never hit on well-formed inputs). -/
inductive Flow
  | ok (success : Bool)
  | crash
  | fuelOut
deriving Repr, DecidableEq

/-- `Mesh.__generate_mesh` / constructor, for an id-sorted association list of
node ids to link lists (Python sorts the JSON items before insertion). -/
def mkMesh (l : List (NodeId × List NodeId)) : Mesh :=
  { nodes := l.map fun p => { node_id := p.1, links := p.2 } }

/-- Dict lookup `self.mesh[nid]` (as an `Option`: `none` is Python's KeyError). -/
def Mesh.find? (m : Mesh) (nid : NodeId) : Option Node :=
  m.nodes.find? fun n => n.node_id == nid

/-- The link list of a node, `self.mesh[nid].links`. -/
def Mesh.linksOf (m : Mesh) (nid : NodeId) : List NodeId :=
  match m.find? nid with
  | some n => n.links
  | none => []

/-- In-place mutation of one node of the mesh. -/
def Mesh.setNode (m : Mesh) (nid : NodeId) (f : Node → Node) : Mesh :=
  { m with nodes := m.nodes.map fun n => if n.node_id == nid then f n else n }

/-- `Mesh.update`: append a formatted event message to the per-tick log.
Message interpolation of packet contents is condensed to the fixed message
text: the program never reads the log entries back, it only tests the list
for emptiness and prints it. -/
def Mesh.update (m : Mesh) (node : Option NodeId) (msg : String) : Mesh :=
  { m with actions := m.actions ++
      [toString m.tick ++ "-" ++
        (match node with | some n => "Node " ++ n | none => "Mesh") ++ ": " ++ msg] }

/-- `Mesh.restore`: clear dead links, bring every node up, log. -/
def Mesh.restore (m : Mesh) : Mesh :=
  let m := { m with dead_links := [],
                    nodes := m.nodes.map fun n : Node => { n with status := true } }
  m.update none "Restored all links and nodes"

/-- `Mesh.toggle_link`: remove the pair (checking both orientations) if dead,
otherwise append it. -/
def Mesh.toggle_link (m : Mesh) (node0 node1 : NodeId) : Mesh :=
  if m.dead_links.contains (node0, node1) then
    ({ m with dead_links := m.dead_links.erase (node0, node1) }).update none
      "Link is now working"
  else if m.dead_links.contains (node1, node0) then
    ({ m with dead_links := m.dead_links.erase (node1, node0) }).update none
      "Link is now working"
  else
    ({ m with dead_links := m.dead_links ++ [(node0, node1)] }).update none
      "FAIL: Link failed"

/-- `Mesh.link_status`: a link is up iff neither orientation is dead. -/
def Mesh.link_status (m : Mesh) (node0 node1 : NodeId) : Bool :=
  !(m.dead_links.contains (node0, node1)) && !(m.dead_links.contains (node1, node0))

/-- `Mesh.get_average_buffer`: mean nonempty buffer size, `-1` if all empty. -/
def Mesh.get_average_buffer (m : Mesh) : Rat :=
  let sizes := (m.nodes.map fun n => n.buffer.length).filter fun s => 1 ≤ s
  if sizes.length = 0 then -1
  else ((sizes.sum : Nat) : Rat) / ((sizes.length : Nat) : Rat)

/-- `Mesh.save("hops", v)`. -/
def Mesh.save_hops (m : Mesh) (value : Nat) : Mesh :=
  { m with hops := m.hops ++ [value] }

/-- `Mesh.save("congestion", v)`. -/
def Mesh.save_congestion (m : Mesh) (value : Rat) : Mesh :=
  { m with congestion := m.congestion ++ [value] }

/-- `Mesh.save("errors")`. -/
def Mesh.save_errors (m : Mesh) : Mesh := { m with errors := m.errors + 1 }

/-- `Mesh.save("unreached")`. -/
def Mesh.save_unreached (m : Mesh) : Mesh := { m with unreached := m.unreached + 1 }

/-- `Mesh.save("round_trip")`. -/
def Mesh.save_round_trip (m : Mesh) : Mesh := { m with round_trip := m.round_trip + 1 }

/-- One call of `Node.__generate_routes(routes, node, path)`: fold over the
given node's links, appending each unexplored extension and recursing into
it.  The fuel argument only bounds the recursion depth; it is chosen large
enough in `gen_topology` never to run out on well-formed meshes. -/
def generate_routes (m : Mesh) : Nat → List Route → NodeId → Route → List Route
  | 0, routes, _, _ => routes
  | fuel + 1, routes, node, path =>
    (m.linksOf node).foldl
      (fun rs link =>
        if rs.contains (path ++ [link]) || path.contains link then rs
        else generate_routes m fuel (rs ++ [path ++ [link]]) link (path ++ [link]))
      routes

/-- The loop body of the fold in `generate_routes`, named for reasoning. -/
def gr_step (m : Mesh) (fuel : Nat) (path : Route) (rs : List Route)
    (link : NodeId) : List Route :=
  if rs.contains (path ++ [link]) || path.contains link then rs
  else generate_routes m fuel (rs ++ [path ++ [link]]) link (path ++ [link])

/-- `T` holds the extension of `q` by every not-yet-visited link of `q`'s
last node (the saturation property of DFS-enumerated path sets). -/
def saturated (m : Mesh) (T : List Route) (q : Route) : Prop :=
  ∀ a, q.getLast? = some a → ∀ b ∈ m.linksOf a, b ∉ q → q ++ [b] ∈ T

/-- `Node.generate_topology`: seed the DFS with the path `[self]`.  The fuel
`m.nodes.length` never runs out: each recursion step lengthens the (duplicate
free) path by one node of the mesh. -/
def gen_topology (m : Mesh) (nid : NodeId) : List Route :=
  generate_routes m m.nodes.length [] nid [nid]

/-- `Mesh.generate_topology`: log, then fill every node's topology.  Python
iterates and mutates node by node; since the DFS only reads the (immutable)
link lists this is the same as the simultaneous map written here. -/
def Mesh.generate_topology (m : Mesh) : Mesh :=
  let m := m.update none "Generating mesh topology..."
  { m with nodes := m.nodes.map fun n => { n with topology := gen_topology m n.node_id } }

/-- `Node.__in_path`: does the path use an avoided link (either direction)?
Python also scans `self.failed` for bare node-id entries contained in the
path, but the program only ever appends `(node, node)` pairs to `failed` and
a pair never compares equal to a node id, so that scan never fires. -/
def in_path (failed : List (NodeId × NodeId)) (path : Route) : Bool :=
  (path.zip path.tail).any fun pr => failed.contains pr || failed.contains (pr.2, pr.1)

/-- The `packet.path.count(node) > 1` scan at the end of `__find_route`. -/
def has_repeat (p : Route) : Bool := p.any fun x => 1 < p.count x

/-- The `for path in self.topology` pass of `__find_route` at one fixed
candidate length: returns the accepted route (if any), the running maximum
path length, and the last alternate seen. -/
def find_route_pass (dest : NodeId) (travel : Route) (failed : List (NodeId × NodeId)) :
    (cands : List Route) → (length maxLen : Nat) → (alt : Route) →
    Option Route × Nat × Route
  | [], _, maxLen, alt => (none, maxLen, alt)
  | p :: ps, length, maxLen, alt =>
    let maxLen' := if maxLen < p.length then p.length else maxLen
    if p.length == length && p.getLast? == some dest && !(in_path failed p) &&
        (p.drop 1).all (fun x => !(travel.contains x)) then
      (some p, maxLen', alt)
    else if p.length == length && p.getLast? == some dest && !(in_path failed p) then
      find_route_pass dest travel failed ps length maxLen' p
    else
      find_route_pass dest travel failed ps length maxLen' alt

/-- The `while not found` loop of `__find_route`, scanning lengths 2, 3, ….
The fuel chosen in `find_route` is proved never to run out. -/
def find_route_loop (top : List Route) (dest : NodeId) (travel : Route)
    (failed : List (NodeId × NodeId)) :
    (fuel length maxLen : Nat) → (alt : Route) → Option Route × Route
  | 0, _, _, alt => (none, alt)
  | fuel + 1, length, maxLen, alt =>
    match find_route_pass dest travel failed top length maxLen alt with
    | (some r, _, alt') => (some r, alt')
    | (none, maxLen', alt') =>
      if maxLen' < length + 1 then (none, alt')
      else find_route_loop top dest travel failed fuel (length + 1) maxLen' alt'

/-- The maximum path length over a topology (the fixed point of the running
`max_length` of `__find_route`). -/
def max_path_len (top : List Route) : Nat := top.foldl (fun a p => max a p.length) 0

/-- `Node.__find_route`. -/
def find_route (n : Node) (pkt : Packet) : Route :=
  if pkt.destination == n.node_id then [n.node_id]
  else
    match find_route_loop n.topology pkt.destination pkt.path n.failed
        (max_path_len n.topology + 2) 2 0 [] with
    | (some r, _) => r
    | (none, alt) =>
      if alt.isEmpty then []
      else if has_repeat pkt.path then []
      else alt

/-- `Node.__receive_packet` on node `nid`. -/
def receive_packet (m : Mesh) (nid : NodeId) (pkt : Packet) (generated : Bool) :
    Mesh × Bool :=
  match m.find? nid with
  | none => (m, false)
  | some n =>
    if n.status then
      let pkt := { pkt with path := pkt.path ++ [nid] }
      let m := m.setNode nid fun nd =>
        { nd with buffer := nd.buffer ++ [pkt],
                  received := if generated then nd.received else true }
      if generated then (m.update (some nid) "Created new packet", true)
      else (m.update (some nid) "Successfully received packet", true)
    else (m.update (some nid) "Failed to receive packet, node down", false)

/-- `Node.__transmit_packet` from `selfId` to `target`.  The Python
`packet is None` default (falling back to the head of the buffer) is never
exercised: the one caller always passes a packet, and `Packet` objects are
always truthy. -/
def transmit_packet (m : Mesh) (selfId target : NodeId) (pkt : Packet) :
    Mesh × Bool :=
  if target == selfId then
    ((receive_packet m selfId pkt false).1, true)
  else
    let m := m.update (some selfId) "Attempting to send packet"
    if !((m.linksOf selfId).contains target) then
      (m.update (some selfId) "FATAL ERROR: routing link does not exist", false)
    else if !(m.link_status selfId target) then
      let m := m.setNode selfId fun nd =>
        { nd with failed := nd.failed ++ [(selfId, target)] }
      ((m.update (some selfId) "FAIL: node could not be reached").save_errors, false)
    else
      match receive_packet m target pkt false with
      | (m, true) => (m.update (some selfId) "Successfully transmitted packet", true)
      | (m, false) =>
        let m := m.setNode selfId fun nd =>
          { nd with failed := nd.failed ++ [(selfId, target)] }
        ((m.update (some selfId) "FAIL: node could not be reached").save_errors, false)

/-- `Node.generate_packet` on node `selfId`. -/
def generate_packet (m : Mesh) (selfId : NodeId) (ptype : PacketType)
    (destination : NodeId) (pdata : Option String) : Mesh :=
  match m.find? selfId with
  | none => m
  | some n =>
    let pkt : Packet :=
      { pdata := pdata, packet_type := ptype, source := selfId,
        destination := destination }
    let pkt := { pkt with routing := find_route n pkt }
    (receive_packet m selfId pkt true).1

/-- Python `list.index`: index of the first occurrence. -/
def idx_of (x : NodeId) : Route → Option Nat
  | [] => none
  | y :: ys => if y == x then some 0 else (idx_of x ys).map (· + 1)

/-- `Node.__send_packet`.  `crash` is Python's uncaught ValueError
(`routing.index` on a missing element) or IndexError (successor index out of
range, or `path[-1]` on an empty path). -/
def send_packet (m : Mesh) (selfId : NodeId) (pkt : Packet) : Mesh × Packet × Flow :=
  let routing :=
    if pkt.routing.isEmpty then
      match m.find? selfId with
      | some n => find_route n pkt
      | none => []
    else pkt.routing
  let pkt := { pkt with routing := routing }
  match pkt.path.getLast? with
  | none => (m, pkt, .crash)
  | some cur =>
    match idx_of cur routing with
    | none => (m, pkt, .crash)
    | some i =>
      match routing.get? (i + 1) with
      | none => (m, pkt, .crash)
      | some next_hop =>
        let r := transmit_packet m selfId next_hop pkt
        (r.1, pkt, .ok r.2)

/-- `Node.__process_packet`. -/
def process_packet (m : Mesh) (selfId : NodeId) (pkt : Packet) : Mesh × Packet × Flow :=
  match pkt.packet_type with
  | .data =>
    if pkt.destination == selfId then
      let m := generate_packet m selfId .ack pkt.source none
      (m.save_hops (pkt.path.length - 1), pkt, .ok true)
    else send_packet m selfId pkt
  | .ack =>
    if pkt.destination == selfId then
      let m := m.update (some selfId) "Acknowledgement packet has returned"
      (m.save_round_trip, pkt, .ok true)
    else send_packet m selfId pkt

/-- The `while not check` retry loop of `Node.run`.  The fuel chosen in
`node_run` is proved sufficient on well-formed states (claim C9). -/
def run_loop (selfId : NodeId) : Nat → Mesh → Packet → Mesh × Packet × Flow
  | 0, m, pkt => (m, pkt, .fuelOut)
  | fuel + 1, m, pkt =>
    match process_packet m selfId pkt with
    | (m, pkt, .ok true) => (m, pkt, .ok true)
    | (m, pkt, .crash) => (m, pkt, .crash)
    | (m, pkt, .fuelOut) => (m, pkt, .fuelOut)
    | (m, pkt, .ok false) =>
      let routing :=
        match m.find? selfId with
        | some n => find_route n pkt
        | none => []
      let pkt := { pkt with routing := routing }
      if routing.isEmpty then
        ((m.update (some selfId) "FAIL: Cannot find valid route").save_unreached,
          pkt, .ok false)
      else run_loop selfId fuel m pkt

/-- `Node.run` on node `selfId`. -/
def node_run (m : Mesh) (selfId : NodeId) : Mesh × Flow :=
  let m := m.setNode selfId fun nd => { nd with failed := [] }
  match m.find? selfId with
  | none => (m, .ok true)
  | some n =>
    if n.buffer.isEmpty then (m, .ok true)
    else if !n.status then (m, .ok false)
    else if n.received then
      (m.setNode selfId fun nd => { nd with received := false }, .ok true)
    else
      match n.buffer.head? with
      | none => (m, .ok true)
      | some pkt =>
        match run_loop selfId (n.links.length + 3) m pkt with
        | (m, _, .ok _) =>
          (m.setNode selfId fun nd => { nd with buffer := nd.buffer.drop 1 }, .ok true)
        | (m, _, .crash) => (m, .crash)
        | (m, _, .fuelOut) => (m, .fuelOut)

/-- Failure category for `rand_fail`. -/
inductive FailType
  | node
  | link
deriving Repr, DecidableEq

/-- `Mesh.rand_fail`, with the random draws passed in explicitly: `roll` is
`randint(1, 100)` and the two picks index the uniform choices.  `crash` is
Python's IndexError from `random.choice` on an empty sequence. -/
def rand_fail (m : Mesh) (fail_type : FailType) (fail_chance : Nat)
    (never_fail : List NodeId) (roll pick_node pick_link : Nat) : Mesh × Flow :=
  if roll ≤ fail_chance then
    let keys := m.nodes.map fun n => n.node_id
    match keys.get? (pick_node % keys.length) with
    | none => (m, .crash)
    | some rand_node =>
      if never_fail.contains rand_node then (m, .ok true)
      else
        match fail_type with
        | .node =>
          match m.find? rand_node with
          | none => (m, .crash)
          | some target =>
            if target.status then
              ((m.setNode rand_node fun nd => { nd with status := false }).update
                none "FAIL: Node has failed.", .ok true)
            else
              ((m.setNode rand_node fun nd => { nd with status := true }).update
                none "Node has been restored.", .ok true)
        | .link =>
          let ls := m.linksOf rand_node
          match ls.get? (pick_link % ls.length) with
          | none => (m, .crash)
          | some rand_link => (m.toggle_link rand_node rand_link, .ok true)
  else (m, .ok true)

/-- The random draws a single `Mesh.run` may consume. -/
structure FailOracle where
  roll_node : Nat := 101
  pick_node_n : Nat := 0
  roll_link : Nat := 101
  pick_node_l : Nat := 0
  pick_link : Nat := 0
deriving Repr, DecidableEq

/-- The `for node in self.mesh` pass of `Mesh.run`: run every node in mesh
order, propagating an uncaught exception. -/
def run_nodes : List NodeId → Mesh → Mesh × Flow
  | [], m => (m, .ok true)
  | i :: is, m =>
    match node_run m i with
    | (m, .ok _) => run_nodes is m
    | (m, .crash) => (m, .crash)
    | (m, .fuelOut) => (m, .fuelOut)

/-- The failure-roll and node-processing tail of `Mesh.run` (everything after
the tick update and the clearing of the event log). -/
def run_failures_and_nodes (m : Mesh) (oracle : FailOracle)
    (never_fail : List NodeId) : Mesh × Flow :=
  match (if 0 < m.fail_chance_node then
      rand_fail m .node m.fail_chance_node never_fail oracle.roll_node
        oracle.pick_node_n 0
    else (m, .ok true)) with
  | (m, .crash) => (m, .crash)
  | (m, .fuelOut) => (m, .fuelOut)
  | (m, .ok _) =>
    match (if 0 < m.fail_chance_link then
        rand_fail m .link m.fail_chance_link never_fail oracle.roll_link
          oracle.pick_node_l oracle.pick_link
      else (m, .ok true)) with
    | (m, .crash) => (m, .crash)
    | (m, .fuelOut) => (m, .fuelOut)
    | (m, .ok _) => run_nodes (m.nodes.map fun n => n.node_id) m

/-- `Mesh.run`. -/
def Mesh.run (m : Mesh) (oracle : FailOracle) (never_fail : List NodeId) :
    Mesh × Flow :=
  let m :=
    if m.actions.isEmpty then m
    else
      let m := { m with tick := m.tick + 1 }
      m.save_congestion m.get_average_buffer
  let m := { m with actions := [] }
  run_failures_and_nodes m oracle never_fail

/-! ### Concrete meshes used by the scenario claims -/

/-- Two nodes with no links at all (the no-route-exists setting of claim C1). -/
def isoMesh : Mesh := (mkMesh [("0", []), ("1", [])]).generate_topology

/-- `isoMesh` after node 0 generates a data packet destined for node 1. -/
def isoMeshP : Mesh := generate_packet isoMesh "0" .data "1" none

/-- The 3-node fully linked triangle of claim C3, topology generated. -/
def triMesh : Mesh :=
  (mkMesh [("0", ["1", "2"]), ("1", ["0", "2"]), ("2", ["0", "1"])]).generate_topology

/-- `triMesh` after node 0 generates a data packet destined for node 2. -/
def triMeshP : Mesh := generate_packet triMesh "0" .data "2" none

/-- A no-failure oracle value (unused when both fail chances are 0). -/
def noFail : FailOracle := {}

/-- States of the triangle after one to five calls of `Mesh.run`. -/
def triRun1 : Mesh := (triMeshP.run noFail []).1

/-- Triangle state after two runs. -/
def triRun2 : Mesh := (triRun1.run noFail []).1

/-- Triangle state after three runs. -/
def triRun3 : Mesh := (triRun2.run noFail []).1

/-- Triangle state after four runs. -/
def triRun4 : Mesh := (triRun3.run noFail []).1

/-- Triangle state after five runs. -/
def triRun5 : Mesh := (triRun4.run noFail []).1

/-- The adjacency relation of the static link graph: `linked m a b` holds
when `b` appears in `a`'s link list. -/
def linked (m : Mesh) (a b : NodeId) : Prop := b ∈ m.linksOf a

/-- Reachability in the static link graph. -/
def reachable (m : Mesh) : NodeId → NodeId → Prop := Relation.ReflTransGen (linked m)

/-- The invariant of enumerated topology entries for start node `start`:
begins at `start`, repeats no node, follows links, and has at least two
entries. -/
def good_path (m : Mesh) (start : NodeId) (p : Route) : Prop :=
  p.head? = some start ∧ p.Nodup ∧ List.Chain' (linked m) p ∧ 2 ≤ p.length

/-- The next-hop computation of `__send_packet`: the element one past the
first occurrence of `x` in the route. -/
def next_hop? (r : Route) (x : NodeId) : Option NodeId :=
  match idx_of x r with
  | none => none
  | some i => r.get? (i + 1)

/-- Modelled on the spec's own wording of route finding (§4.2), for the
refinement claim about `__find_route`: candidates are scanned in increasing
path length (ties in topology order); the first candidate passing both the
avoidance check and the traveled-path check wins; otherwise the last
candidate passing the avoidance check alone is the fallback, refused when
the traveled path repeats some node. -/
def find_route_spec (top : List Route) (dest : NodeId) (travel : Route)
    (failed : List (NodeId × NodeId)) : Route :=
  let cands := (List.range' 2 (max_path_len top - 1)).flatMap fun len =>
    top.filter fun p => p.length == len && p.getLast? == some dest
  match cands.find? (fun p => !(in_path failed p) &&
      ((p.drop 1).all fun x => !(travel.contains x))) with
  | some r => r
  | none =>
    match (cands.filter fun p => !(in_path failed p)).getLast? with
    | none => []
    | some a => if has_repeat travel then [] else a

/-- The candidate paths of one length: length matches and last node is the
destination (the per-pass selection of `__find_route`). -/
def cands_at (top : List Route) (dest : NodeId) (len : Nat) : List Route :=
  top.filter fun p => p.length == len && p.getLast? == some dest

/-- All candidates from length `L` up to the maximum path length, in the scan
order of `__find_route` (increasing length, topology order within). -/
def cands_from (top : List Route) (dest : NodeId) (L : Nat) : List Route :=
  (List.range' L (max_path_len top + 1 - L)).flatMap (cands_at top dest)

/-- Node 0 of the generated triangle mesh, with its enumerated topology
(used by witnesses). -/
def triNode0 : Node :=
  { node_id := "0", links := ["1", "2"],
    topology := [["0", "1"], ["0", "1", "2"], ["0", "2"], ["0", "2", "1"]] }

/-- A two-node line mesh in which node 0 has been brought down. -/
def downMesh : Mesh :=
  (mkMesh [("0", ["1"]), ("1", ["0"])]).setNode "0" fun n => { n with status := false }

/-- The state of node 0 inside `downMesh`. -/
def downNode : Node :=
  { node_id := "0", status := false, links := ["1"] }

/-- Boolean link-chain check: consecutive route entries are linked in `m`
(the executable counterpart of `List.Chain' (linked m)`). -/
def chainb (m : Mesh) : Route → Bool
  | [] => true
  | [_] => true
  | a :: b :: t => (m.linksOf a).contains b && chainb m (b :: t)

/-- Topology well-formedness at a node, as used by the retry-loop claim
(C9): every stored route starts at the node itself and follows existing
links.  `Mesh.generate_topology` establishes this for every node. -/
def good_topology (m : Mesh) (n : Node) : Bool :=
  n.topology.all fun r => (r.head? == some n.node_id) && chainb m r

/-- A usable in-flight routing assignment: the current node occurs on it,
it ends at the packet's destination, and it follows existing links. -/
def route_ok (m : Mesh) (selfId : NodeId) (pkt : Packet) : Bool :=
  pkt.routing.contains selfId && (pkt.routing.getLast? == some pkt.destination) &&
    chainb m pkt.routing

/-- The number of distinct links of `n` not yet recorded in the avoidance
memory as failed from `selfId`: the decreasing measure of the retry loop. -/
def avail (selfId : NodeId) (n : Node) : Nat :=
  ((n.links.dedup).filter fun l => !(n.failed.contains (selfId, l))).length

/-- The data packet buffered at node 0 of `triMeshP` (used by witnesses). -/
def triPkt : Packet :=
  { pdata := none, packet_type := .data, source := "0", destination := "2",
    routing := ["0", "2"], path := ["0"] }

/-- Node 0 of `triMeshP`: the triangle node holding `triPkt`. -/
def triP0 : Node :=
  { node_id := "0", links := ["1", "2"],
    topology := [["0", "1"], ["0", "1", "2"], ["0", "2"], ["0", "2", "1"]],
    buffer := [triPkt] }

/-- The data packet buffered at node 0 of `isoMeshP` (its routing is empty:
no route to the unreachable destination exists). -/
def isoPkt : Packet :=
  { pdata := none, packet_type := .data, source := "0", destination := "1",
    routing := [], path := ["0"] }

/-! ### Frame lemmas: no operation after the tick update of `Mesh.run`
touches the tick counter or the congestion metric -/

theorem tick_setNode (m : Mesh) (nid : NodeId) (f : Node → Node) :
    (m.setNode nid f).tick = m.tick := rfl

theorem congestion_setNode (m : Mesh) (nid : NodeId) (f : Node → Node) :
    (m.setNode nid f).congestion = m.congestion := rfl

theorem tick_update (m : Mesh) (o : Option NodeId) (s : String) :
    (m.update o s).tick = m.tick := rfl

theorem congestion_update (m : Mesh) (o : Option NodeId) (s : String) :
    (m.update o s).congestion = m.congestion := rfl

theorem tc_receive (m : Mesh) (nid : NodeId) (pkt : Packet) (g : Bool) :
    (receive_packet m nid pkt g).1.tick = m.tick ∧
    (receive_packet m nid pkt g).1.congestion = m.congestion := by
  unfold receive_packet
  split
  · exact ⟨rfl, rfl⟩
  · split
    · split <;> exact ⟨rfl, rfl⟩
    · exact ⟨rfl, rfl⟩

theorem tc_transmit (m : Mesh) (selfId target : NodeId) (pkt : Packet) :
    (transmit_packet m selfId target pkt).1.tick = m.tick ∧
    (transmit_packet m selfId target pkt).1.congestion = m.congestion := by
  unfold transmit_packet
  split
  · exact tc_receive m selfId pkt false
  · dsimp only
    split
    · exact ⟨rfl, rfl⟩
    · split
      · exact ⟨rfl, rfl⟩
      · have h := tc_receive (m.update (some selfId) "Attempting to send packet")
          target pkt false
        rcases hr : receive_packet (m.update (some selfId) "Attempting to send packet")
          target pkt false with ⟨m2, b⟩
        rw [hr] at h
        cases b
        · exact ⟨h.1, h.2⟩
        · exact ⟨h.1, h.2⟩

theorem tc_generate (m : Mesh) (selfId : NodeId) (t : PacketType) (d : NodeId)
    (pd : Option String) :
    (generate_packet m selfId t d pd).tick = m.tick ∧
    (generate_packet m selfId t d pd).congestion = m.congestion := by
  unfold generate_packet
  split
  · exact ⟨rfl, rfl⟩
  · exact tc_receive m selfId _ true

theorem tc_send (m : Mesh) (selfId : NodeId) (pkt : Packet) :
    (send_packet m selfId pkt).1.tick = m.tick ∧
    (send_packet m selfId pkt).1.congestion = m.congestion := by
  unfold send_packet
  dsimp only
  split
  · exact ⟨rfl, rfl⟩
  · split
    · exact ⟨rfl, rfl⟩
    · split
      · exact ⟨rfl, rfl⟩
      · exact tc_transmit m selfId _ _

theorem tc_process (m : Mesh) (selfId : NodeId) (pkt : Packet) :
    (process_packet m selfId pkt).1.tick = m.tick ∧
    (process_packet m selfId pkt).1.congestion = m.congestion := by
  unfold process_packet
  split
  · split
    · have h := tc_generate m selfId .ack pkt.source none
      simpa [Mesh.save_hops] using h
    · exact tc_send m selfId pkt
  · split
    · simp [Mesh.save_round_trip, Mesh.update]
    · exact tc_send m selfId pkt

theorem tc_run_loop (selfId : NodeId) (fuel : Nat) (m : Mesh) (pkt : Packet) :
    (run_loop selfId fuel m pkt).1.tick = m.tick ∧
    (run_loop selfId fuel m pkt).1.congestion = m.congestion := by
  induction fuel generalizing m pkt with
  | zero => exact ⟨rfl, rfl⟩
  | succ f ih =>
    unfold run_loop
    have h1 := tc_process m selfId pkt
    split
    next m1 p1 heq => rw [heq] at h1; exact h1
    next m1 p1 heq => rw [heq] at h1; exact h1
    next m1 p1 heq => rw [heq] at h1; exact h1
    next m1 p1 heq =>
      rw [heq] at h1
      dsimp only
      split
      next => exact h1
      next =>
        have h2 := ih m1 { p1 with routing :=
          (match m1.find? selfId with
           | some n => find_route n p1
           | none => []) }
        exact ⟨h2.1.trans h1.1, h2.2.trans h1.2⟩

theorem tc_node_run (m : Mesh) (selfId : NodeId) :
    (node_run m selfId).1.tick = m.tick ∧
    (node_run m selfId).1.congestion = m.congestion := by
  unfold node_run
  dsimp only
  split
  next => exact ⟨rfl, rfl⟩
  next n hfind =>
    split
    next => exact ⟨rfl, rfl⟩
    next hbuf =>
      split
      next => exact ⟨rfl, rfl⟩
      next hstat =>
        split
        next => exact ⟨rfl, rfl⟩
        next hrecv =>
          split
          next => exact ⟨rfl, rfl⟩
          next pkt hhead =>
            have h := tc_run_loop selfId (n.links.length + 3)
              (m.setNode selfId fun nd => { nd with failed := [] }) pkt
            split
            next m1 p1 b heq => rw [heq] at h; exact ⟨h.1, h.2⟩
            next m1 p1 heq => rw [heq] at h; exact h
            next m1 p1 heq => rw [heq] at h; exact h

theorem tc_run_nodes (ids : List NodeId) (m : Mesh) :
    (run_nodes ids m).1.tick = m.tick ∧
    (run_nodes ids m).1.congestion = m.congestion := by
  induction ids generalizing m with
  | nil => exact ⟨rfl, rfl⟩
  | cons i is ih =>
    unfold run_nodes
    have h := tc_node_run m i
    split <;> rename_i heq <;> rw [heq] at h
    · have h2 := ih (node_run m i).1
      rw [heq] at h2
      exact ⟨h2.1.trans h.1, h2.2.trans h.2⟩
    · exact h
    · exact h

theorem tc_toggle_link (m : Mesh) (a b : NodeId) :
    (m.toggle_link a b).tick = m.tick ∧ (m.toggle_link a b).congestion = m.congestion := by
  unfold Mesh.toggle_link
  split
  · exact ⟨rfl, rfl⟩
  · split
    · exact ⟨rfl, rfl⟩
    · exact ⟨rfl, rfl⟩

theorem tc_rand_fail (m : Mesh) (ft : FailType) (c : Nat) (nf : List NodeId)
    (roll pn pl : Nat) :
    (rand_fail m ft c nf roll pn pl).1.tick = m.tick ∧
    (rand_fail m ft c nf roll pn pl).1.congestion = m.congestion := by
  unfold rand_fail
  split
  next =>
    dsimp only
    split
    next => exact ⟨rfl, rfl⟩
    next rand_node hget =>
      split
      next => exact ⟨rfl, rfl⟩
      next hnf =>
        split
        next =>
          split
          next => exact ⟨rfl, rfl⟩
          next target hfind =>
            split
            next => exact ⟨rfl, rfl⟩
            next => exact ⟨rfl, rfl⟩
        next =>
          split
          next => exact ⟨rfl, rfl⟩
          next rand_link hget2 => exact tc_toggle_link m rand_node rand_link
  next => exact ⟨rfl, rfl⟩

/-! ### Claim theorems: scenarios and frame claims -/

/-- C7: `Mesh.restore` empties the dead-link set and sets every node's status
to up, while leaving the tick counter, every node's buffer, and every node's
avoidance memory unchanged. -/
theorem restore_effect (m : Mesh) :
    m.restore.dead_links = [] ∧
    m.restore.nodes.map Node.status = m.nodes.map (fun _ => true) ∧
    m.restore.tick = m.tick ∧
    m.restore.nodes.map Node.buffer = m.nodes.map Node.buffer ∧
    m.restore.nodes.map Node.failed = m.nodes.map Node.failed := by
  unfold Mesh.restore Mesh.update
  refine ⟨rfl, ?_, rfl, ?_, ?_⟩ <;> simp only [List.map_map] <;> rfl

theorem tc_run_failures_and_nodes (m : Mesh) (oracle : FailOracle) (nf : List NodeId) :
    (run_failures_and_nodes m oracle nf).1.tick = m.tick ∧
    (run_failures_and_nodes m oracle nf).1.congestion = m.congestion := by
  unfold run_failures_and_nodes
  have ha : ∀ (mm : Mesh) (ft : FailType) (c : Nat) (r p q : Nat),
      (if 0 < c then rand_fail mm ft c nf r p q else (mm, Flow.ok true)).1.tick = mm.tick ∧
      (if 0 < c then rand_fail mm ft c nf r p q else (mm, Flow.ok true)).1.congestion =
        mm.congestion := by
    intro mm ft c r p q
    split
    · exact tc_rand_fail mm ft c nf r p q
    · exact ⟨rfl, rfl⟩
  split <;> rename_i h1
  case _ mA =>
    have h := ha m .node m.fail_chance_node oracle.roll_node oracle.pick_node_n 0
    rw [h1] at h
    exact h
  case _ mA =>
    have h := ha m .node m.fail_chance_node oracle.roll_node oracle.pick_node_n 0
    rw [h1] at h
    exact h
  case _ mA b =>
    have h := ha m .node m.fail_chance_node oracle.roll_node oracle.pick_node_n 0
    rw [h1] at h
    split <;> rename_i h2
    all_goals
      have h' := ha mA .link mA.fail_chance_link oracle.roll_link oracle.pick_node_l
        oracle.pick_link
      rw [h2] at h'
    · exact ⟨h'.1.trans h.1, h'.2.trans h.2⟩
    · exact ⟨h'.1.trans h.1, h'.2.trans h.2⟩
    · rename_i mB b2
      have h'' := tc_run_nodes (mB.nodes.map fun n => n.node_id) mB
      exact ⟨(h''.1.trans h'.1).trans h.1, (h''.2.trans h'.2).trans h.2⟩

/-- C10: if `generate_packet` is invoked on a node whose status is down, the
new packet is silently discarded: no buffer in the mesh changes, no metric
(hops, congestion, errors, unreached, round trips) is incremented, and the
call returns normally (the packet, never stored, keeps its empty path). -/
theorem generate_packet_down (m : Mesh) (nid : NodeId) (n : Node)
    (t : PacketType) (dest : NodeId) (pd : Option String)
    (hfind : m.find? nid = some n) (hdown : n.status = false) :
    (generate_packet m nid t dest pd).nodes.map Node.buffer = m.nodes.map Node.buffer ∧
    (generate_packet m nid t dest pd).hops = m.hops ∧
    (generate_packet m nid t dest pd).congestion = m.congestion ∧
    (generate_packet m nid t dest pd).errors = m.errors ∧
    (generate_packet m nid t dest pd).unreached = m.unreached ∧
    (generate_packet m nid t dest pd).round_trip = m.round_trip := by
  unfold generate_packet
  rw [hfind]
  dsimp only
  unfold receive_packet
  rw [hfind]
  dsimp only
  rw [hdown]
  simp [Mesh.update]

/-- Witness for C10: the hypotheses of `generate_packet_down` hold for
`downMesh` at node 0 and the conclusion follows. -/
theorem generate_packet_down_witness :
    downMesh.find? "0" = some downNode ∧ downNode.status = false ∧
    ((generate_packet downMesh "0" PacketType.data "1" none).nodes.map Node.buffer =
        downMesh.nodes.map Node.buffer ∧
      (generate_packet downMesh "0" PacketType.data "1" none).hops = downMesh.hops ∧
      (generate_packet downMesh "0" PacketType.data "1" none).congestion =
        downMesh.congestion ∧
      (generate_packet downMesh "0" PacketType.data "1" none).errors = downMesh.errors ∧
      (generate_packet downMesh "0" PacketType.data "1" none).unreached =
        downMesh.unreached ∧
      (generate_packet downMesh "0" PacketType.data "1" none).round_trip =
        downMesh.round_trip) :=
  ⟨by decide, by decide,
    generate_packet_down downMesh "0" downNode .data "1" none (by decide) (by decide)⟩

/-- C1 (code bug): on a mesh of two linkless nodes, route finding at node 0
for destination 1 does return the empty route, but the generated data packet
does not lead to an unreachable-count increment with the packet removed from
the buffer: `Node.run` crashes (Python raises an uncaught ValueError from
`[].index` inside `__send_packet`), the unreachable counter stays 0, and the
packet is still in node 0's buffer. -/
theorem isolated_node_crash :
    ((isoMesh.find? "0").map fun n =>
        find_route n { packet_type := .data, source := "0", destination := "1" }) =
      some [] ∧
    (node_run isoMeshP "0").2 = Flow.crash ∧
    (node_run isoMeshP "0").1.unreached = 0 ∧
    ((node_run isoMeshP "0").1.find? "0").map (fun n => n.buffer.length) = some 1 := by
  refine ⟨by decide, by decide, by decide, by decide⟩

/-- C3 counterexample: on the triangle, the data packet from node 0 to node 2
is delivered during the first run, but after the following run the round-trip
count is 0, not 1 as claimed (the hop-count list is already `[1]`). -/
theorem tri_round_trip_not_yet_one :
    ((triRun1.find? "2").map fun n => n.buffer.map Packet.path) = some [["0", "2"]] ∧
    triRun2.hops = [1] ∧
    triRun2.round_trip ≠ 1 := by
  refine ⟨by decide, by decide, by decide⟩

/-- C3 (amended): the data packet is delivered within one tick via route
`["0", "2"]` and the hop-count list becomes `[1]` on the second run, but the
acknowledgement only returns to node 0 during the third run, waits out its
received-this-tick deferral during the fourth, and completes the round trip
on the fifth run (with the tick counter at 4, the fifth run being uncharged),
leaving round-trip count 1 and hop-count list `[1]`. -/
theorem tri_round_trip_trace :
    ((triMeshP.find? "0").map fun n => n.buffer.map Packet.routing) =
      some [["0", "2"]] ∧
    ((triRun1.find? "2").map fun n => n.buffer.map Packet.path) = some [["0", "2"]] ∧
    triRun1.tick = 1 ∧
    triRun2.hops = [1] ∧
    triRun2.round_trip = 0 ∧
    ((triRun3.find? "0").map fun n => n.buffer.map fun p => (p.packet_type, p.path)) =
      some [(PacketType.ack, ["2", "0"])] ∧
    triRun4.round_trip = 0 ∧
    triRun5.round_trip = 1 ∧
    triRun5.hops = [1] ∧
    triRun5.tick = 4 ∧
    triRun5.nodes.map (fun n => n.buffer.length) = [0, 0, 0] := by
  refine ⟨by decide, by decide, by decide, by decide, by decide, by decide,
    by decide, by decide, by decide, by decide, by decide⟩

/-- C8: `Mesh.run` advances the tick counter and appends one
average-buffer-occupancy sample to the congestion metric exactly when the
event log carried over from the previous run is non-empty; with an empty log
it does neither.  This holds for every random-failure draw. -/
theorem run_tick_and_congestion (m : Mesh) (oracle : FailOracle) (nf : List NodeId) :
    (m.run oracle nf).1.tick = (if m.actions = [] then m.tick else m.tick + 1) ∧
    (m.run oracle nf).1.congestion =
      m.congestion ++ (if m.actions = [] then [] else [m.get_average_buffer]) := by
  unfold Mesh.run
  rcases hA : m.actions with _ | ⟨a, as⟩
  · simp only [hA, List.isEmpty_nil, if_true, List.append_nil, ite_self]
    have h := tc_run_failures_and_nodes { m with actions := [] } oracle nf
    exact ⟨h.1, h.2⟩
  · simp only [hA, List.isEmpty_cons, Bool.false_eq_true, if_false,
      List.cons_ne_nil, ite_false]
    have h := tc_run_failures_and_nodes
      { ({ m with tick := m.tick + 1 } : Mesh).save_congestion
          ({ m with tick := m.tick + 1 } : Mesh).get_average_buffer with actions := [] }
      oracle nf
    exact ⟨h.1, h.2⟩

/-! ### Topology enumeration invariants -/

theorem generate_routes_good (m : Mesh) (start : NodeId) :
    ∀ (fuel : Nat) (routes : List Route) (node : NodeId) (path : Route),
      path.head? = some start → path.Nodup → List.Chain' (linked m) path →
      path.getLast? = some node → 1 ≤ path.length →
      (∀ p ∈ routes, good_path m start p) →
      ∀ p ∈ generate_routes m fuel routes node path, good_path m start p := by
  intro fuel
  induction fuel with
  | zero => intro routes node path _ _ _ _ _ hr p hp; exact hr p hp
  | succ f ih =>
    intro routes node path hhead hnodup hchain hlast hlen hr
    have hpne : path ≠ [] := by
      intro h; rw [h] at hlen; simp at hlen
    have main : ∀ (ls : List NodeId), (∀ l ∈ ls, l ∈ m.linksOf node) →
        ∀ (rs : List Route), (∀ p ∈ rs, good_path m start p) →
        ∀ p ∈ ls.foldl (fun rs link =>
            if rs.contains (path ++ [link]) || path.contains link then rs
            else generate_routes m f (rs ++ [path ++ [link]]) link (path ++ [link])) rs,
          good_path m start p := by
      intro ls
      induction ls with
      | nil => intro _ rs hrs p hp; exact hrs p (by simpa using hp)
      | cons l ls ihl =>
        intro hmem rs hrs
        rw [List.foldl_cons]
        by_cases hc : (rs.contains (path ++ [l]) || path.contains l) = true
        · rw [if_pos hc]
          exact ihl (fun x hx => hmem x (List.mem_cons_of_mem _ hx)) rs hrs
        · rw [if_neg hc]
          have hl_link : l ∈ m.linksOf node := hmem l (List.mem_cons_self _ _)
          have hlnotin : l ∉ path := by
            intro hin
            exact hc (by simp [List.elem_iff, hin])
          have hgood : good_path m start (path ++ [l]) := by
            refine ⟨?_, ?_, ?_, ?_⟩
            · rw [List.head?_append_of_ne_nil _ hpne]
              exact hhead
            · exact List.Nodup.append hnodup (List.nodup_singleton l)
                (by simpa [List.disjoint_singleton] using hlnotin)
            · refine List.chain'_append.mpr ⟨hchain, List.chain'_singleton l, ?_⟩
              intro x hx y hy
              rw [hlast] at hx
              simp only [Option.mem_def, Option.some.injEq, List.head?_cons] at hx hy
              subst hx
              subst hy
              exact hl_link
            · have : 1 ≤ path.length := hlen
              simp [List.length_append]
              omega
          apply ihl (fun x hx => hmem x (List.mem_cons_of_mem _ hx))
          apply ih (rs ++ [path ++ [l]]) l (path ++ [l])
          · rw [List.head?_append_of_ne_nil _ hpne]
            exact hhead
          · exact hgood.2.1
          · exact hgood.2.2.1
          · exact (List.getLast?_append_cons path l []).trans rfl
          · simp [List.length_append]
          · intro p hp
            rcases List.mem_append.mp hp with h | h
            · exact hrs p h
            · rw [List.mem_singleton.mp h]
              exact hgood
    simp only [generate_routes]
    exact main (m.linksOf node) (fun _ h => h) routes hr

theorem mem_generate_topology (m : Mesh) (n : Node)
    (hn : n ∈ m.generate_topology.nodes) :
    ∃ n0 ∈ m.nodes, n = { n0 with topology :=
      (gen_topology (m.update none "Generating mesh topology...") n0.node_id) } := by
  unfold Mesh.generate_topology at hn
  obtain ⟨n0, hn0, heq⟩ := List.mem_map.mp hn
  exact ⟨n0, hn0, heq.symm⟩

/-- C6: after `generate_topology`, every path in a node's enumerated topology
starts with that node's id and contains no node id twice. -/
theorem topology_head_nodup (m : Mesh) (n : Node)
    (hn : n ∈ m.generate_topology.nodes) (p : Route) (hp : p ∈ n.topology) :
    p.head? = some n.node_id ∧ p.Nodup := by
  obtain ⟨n0, hn0, rfl⟩ := mem_generate_topology m n hn
  have h := generate_routes_good (m.update none "Generating mesh topology...")
    n0.node_id (m.update none "Generating mesh topology...").nodes.length
    [] n0.node_id [n0.node_id]
    rfl (List.nodup_singleton _) (List.chain'_singleton _) rfl (by simp)
    (by simp) p hp
  exact ⟨h.1, h.2.1⟩

/-- Witness for C6: the path `["0", "2", "1"]` of node 0's topology on the
generated triangle starts at `"0"` and repeats no node. -/
theorem topology_head_nodup_witness :
    triNode0 ∈ triMesh.nodes ∧ ["0", "2", "1"] ∈ triNode0.topology ∧
    (["0", "2", "1"].head? = some triNode0.node_id ∧ ["0", "2", "1"].Nodup) :=
  ⟨by decide, by decide,
    topology_head_nodup (mkMesh [("0", ["1", "2"]), ("1", ["0", "2"]), ("2", ["0", "1"])])
      triNode0 (by decide) ["0", "2", "1"] (by decide)⟩

theorem generate_routes_succ (m : Mesh) (fuel : Nat) (routes : List Route)
    (node : NodeId) (path : Route) :
    generate_routes m (fuel + 1) routes node path =
      (m.linksOf node).foldl (gr_step m fuel path) routes := rfl

theorem generate_routes_grows (m : Mesh) :
    ∀ (fuel : Nat) (routes : List Route) (node : NodeId) (path : Route),
      ∃ t, generate_routes m fuel routes node path = routes ++ t := by
  intro fuel
  induction fuel with
  | zero => intro routes node path; exact ⟨[], by simp [generate_routes]⟩
  | succ f ih =>
    intro routes node path
    rw [generate_routes_succ]
    have main : ∀ (ls : List NodeId) (rs : List Route),
        ∃ t, ls.foldl (gr_step m f path) rs = rs ++ t := by
      intro ls
      induction ls with
      | nil => intro rs; exact ⟨[], by simp⟩
      | cons l ls ihl =>
        intro rs
        rw [List.foldl_cons]
        by_cases hc : (rs.contains (path ++ [l]) || path.contains l) = true
        · have hstep : gr_step m f path rs l = rs := by
            simp only [gr_step]; rw [if_pos hc]
          rw [hstep]
          exact ihl rs
        · have hstep : gr_step m f path rs l =
              generate_routes m f (rs ++ [path ++ [l]]) l (path ++ [l]) := by
            simp only [gr_step]; rw [if_neg hc]
          obtain ⟨t1, ht1⟩ := ih (rs ++ [path ++ [l]]) l (path ++ [l])
          obtain ⟨t2, ht2⟩ := ihl (generate_routes m f (rs ++ [path ++ [l]]) l (path ++ [l]))
          refine ⟨[path ++ [l]] ++ t1 ++ t2, ?_⟩
          rw [hstep, ht2, ht1]
          simp
    exact main (m.linksOf node) routes

theorem foldl_gr_step_grows (m : Mesh) (fuel : Nat) (path : Route) :
    ∀ (ls : List NodeId) (rs : List Route),
      ∃ t, ls.foldl (gr_step m fuel path) rs = rs ++ t := by
  intro ls
  induction ls with
  | nil => intro rs; exact ⟨[], by simp⟩
  | cons l ls ihl =>
    intro rs
    rw [List.foldl_cons]
    by_cases hc : (rs.contains (path ++ [l]) || path.contains l) = true
    · have hstep : gr_step m fuel path rs l = rs := by
        simp only [gr_step]; rw [if_pos hc]
      rw [hstep]
      exact ihl rs
    · have hstep : gr_step m fuel path rs l =
          generate_routes m fuel (rs ++ [path ++ [l]]) l (path ++ [l]) := by
        simp only [gr_step]; rw [if_neg hc]
      obtain ⟨t1, ht1⟩ := generate_routes_grows m fuel (rs ++ [path ++ [l]]) l (path ++ [l])
      obtain ⟨t2, ht2⟩ := ihl (generate_routes m fuel (rs ++ [path ++ [l]]) l (path ++ [l]))
      refine ⟨[path ++ [l]] ++ t1 ++ t2, ?_⟩
      rw [hstep, ht2, ht1]
      simp

theorem saturated_mono (m : Mesh) (T T' : List Route) (q : Route)
    (hsub : ∀ x ∈ T, x ∈ T') (h : saturated m T q) : saturated m T' q :=
  fun a ha b hb hbq => hsub _ (h a ha b hb hbq)

theorem nodup_subset_length (l L : List NodeId) (h : l.Nodup)
    (hs : ∀ x ∈ l, x ∈ L) : l.length ≤ L.length := by
  have h1 : l.toFinset.card = l.length := List.toFinset_card_of_nodup h
  have h2 : l.toFinset ⊆ L.toFinset := by
    intro x hx
    simp only [List.mem_toFinset] at hx ⊢
    exact hs x hx
  have h3 := Finset.card_le_card h2
  have h4 := L.toFinset_card_le
  omega

theorem generate_routes_closure (m : Mesh)
    (hwf : ∀ a b, b ∈ m.linksOf a → b ∈ m.nodes.map Node.node_id) :
    ∀ (fuel : Nat) (routes : List Route) (node : NodeId) (path : Route),
      path.Nodup → (∀ x ∈ path, x ∈ m.nodes.map Node.node_id) → path ≠ [] →
      path.getLast? = some node →
      (m.nodes.map Node.node_id).length + 1 ≤ fuel + path.length →
      (∀ b ∈ m.linksOf node, b ∉ path →
          path ++ [b] ∈ generate_routes m fuel routes node path) ∧
      (∀ q ∈ generate_routes m fuel routes node path, q ∉ routes →
          q.Nodup ∧ (∀ x ∈ q, x ∈ m.nodes.map Node.node_id) ∧
          saturated m (generate_routes m fuel routes node path) q) := by
  intro fuel
  induction fuel with
  | zero =>
    intro routes node path hnd hsub hne hlast hbound
    exfalso
    have hlen := nodup_subset_length path (m.nodes.map Node.node_id) hnd hsub
    omega
  | succ f ih =>
    intro routes node path hnd hsub hne hlast hbound
    rw [generate_routes_succ]
    have main : ∀ (ls : List NodeId), (∀ l ∈ ls, l ∈ m.linksOf node) →
        ∀ (rs : List Route),
        (∀ q ∈ rs, q ∉ routes → q.Nodup ∧
            (∀ x ∈ q, x ∈ m.nodes.map Node.node_id) ∧ saturated m rs q) →
        (∀ l ∈ ls, l ∉ path → path ++ [l] ∈ ls.foldl (gr_step m f path) rs) ∧
        (∀ q ∈ ls.foldl (gr_step m f path) rs, q ∉ routes →
            q.Nodup ∧ (∀ x ∈ q, x ∈ m.nodes.map Node.node_id) ∧
            saturated m (ls.foldl (gr_step m f path) rs) q) := by
      intro ls
      induction ls with
      | nil =>
        intro _ rs hacc
        exact ⟨by simp, by simpa using hacc⟩
      | cons l ls ihl =>
        intro hmem rs hacc
        rw [List.foldl_cons]
        by_cases hc : (rs.contains (path ++ [l]) || path.contains l) = true
        · have hstep : gr_step m f path rs l = rs := by
            simp only [gr_step]; rw [if_pos hc]
          rw [hstep]
          have hrest := ihl (fun x hx => hmem x (List.mem_cons_of_mem _ hx)) rs hacc
          refine ⟨?_, hrest.2⟩
          intro b hb hbp
          rcases List.mem_cons.mp hb with rfl | hb'
          · have hin : path ++ [b] ∈ rs := by
              rcases (Bool.or_eq_true _ _).mp hc with h1 | h1
              · exact List.elem_iff.mp h1
              · exact absurd (List.elem_iff.mp h1) hbp
            obtain ⟨t, ht⟩ := foldl_gr_step_grows m f path ls rs
            rw [ht]
            exact List.mem_append_left _ hin
          · exact hrest.1 b hb' hbp
        · have hstep : gr_step m f path rs l =
              generate_routes m f (rs ++ [path ++ [l]]) l (path ++ [l]) := by
            simp only [gr_step]; rw [if_neg hc]
          rw [hstep]
          have hlnp : l ∉ path := by
            intro hin
            exact hc (by simp [List.elem_iff, hin])
          have hl_link : l ∈ m.linksOf node := hmem l (List.mem_cons_self _ _)
          have hnp_nd : (path ++ [l]).Nodup :=
            List.Nodup.append hnd (List.nodup_singleton l)
              (by simpa [List.disjoint_singleton] using hlnp)
          have hnp_sub : ∀ x ∈ path ++ [l], x ∈ m.nodes.map Node.node_id := by
            intro x hx
            rcases List.mem_append.mp hx with h1 | h1
            · exact hsub x h1
            · rw [List.mem_singleton.mp h1]
              exact hwf node l hl_link
          have hnp_last : (path ++ [l]).getLast? = some l :=
            (List.getLast?_append_cons path l []).trans rfl
          have hnp_len : (path ++ [l]).length = path.length + 1 := by simp
          have hsubcall := ih (rs ++ [path ++ [l]]) l (path ++ [l]) hnp_nd hnp_sub
            (by simp) hnp_last (by omega)
          obtain ⟨t1, ht1⟩ := generate_routes_grows m f (rs ++ [path ++ [l]]) l (path ++ [l])
          have hacc' : ∀ q ∈ generate_routes m f (rs ++ [path ++ [l]]) l (path ++ [l]),
              q ∉ routes → q.Nodup ∧ (∀ x ∈ q, x ∈ m.nodes.map Node.node_id) ∧
              saturated m (generate_routes m f (rs ++ [path ++ [l]]) l (path ++ [l])) q := by
            intro q hq hqr
            by_cases hqrs : q ∈ rs ++ [path ++ [l]]
            · rcases List.mem_append.mp hqrs with hq1 | hq2
              · have hold := hacc q hq1 hqr
                refine ⟨hold.1, hold.2.1, saturated_mono m rs _ q ?_ hold.2.2⟩
                intro x hx
                rw [ht1]
                exact List.mem_append_left _ (List.mem_append_left _ hx)
              · have hqnp : q = path ++ [l] := List.mem_singleton.mp hq2
                subst hqnp
                refine ⟨hnp_nd, hnp_sub, ?_⟩
                intro a ha b hb hbq
                rw [hnp_last] at ha
                injection ha with ha
                subst ha
                exact hsubcall.1 b hb hbq
            · exact hsubcall.2 q hq hqrs
          have hrest := ihl (fun x hx => hmem x (List.mem_cons_of_mem _ hx)) _ hacc'
          refine ⟨?_, hrest.2⟩
          intro b hb hbp
          rcases List.mem_cons.mp hb with rfl | hb'
          · obtain ⟨t2, ht2⟩ := foldl_gr_step_grows m f path ls
              (generate_routes m f (rs ++ [path ++ [b]]) b (path ++ [b]))
            rw [ht2, ht1]
            exact List.mem_append_left _ (List.mem_append_left _
              (List.mem_append_right _ (List.mem_singleton_self _)))
          · exact hrest.1 b hb' hbp
    exact main (m.linksOf node) (fun _ h => h) routes
      (fun q hq hqr => absurd hq hqr)

theorem reachable_simple_chain (m : Mesh) (a c : NodeId) (h : reachable m a c) :
    ∃ l : List NodeId, List.Chain' (linked m) (a :: l) ∧ (a :: l).Nodup ∧
      (a :: l).getLast? = some c := by
  induction h with
  | refl => exact ⟨[], List.chain'_singleton a, List.nodup_singleton a, rfl⟩
  | @tail b c hab hbc ih =>
    obtain ⟨l, hch, hnd, hlast⟩ := ih
    by_cases hcmem : c ∈ a :: l
    · obtain ⟨s, t, hst⟩ := List.append_of_mem hcmem
      cases s with
      | nil =>
        have hac : a = c := by
          have := congrArg List.head? hst
          simpa using this
        refine ⟨[], List.chain'_singleton a, List.nodup_singleton a, ?_⟩
        simp [hac]
      | cons x s' =>
        rw [List.cons_append] at hst
        injection hst with h1 h2
        subst h1
        refine ⟨s' ++ [c], ?_, ?_, ?_⟩
        · have hch' : List.Chain' (linked m) ((a :: s') ++ c :: t) := by
            rw [h2] at hch
            simpa using hch
          obtain ⟨ch1, _, hrel⟩ := List.chain'_append.mp hch'
          rw [show a :: (s' ++ [c]) = (a :: s') ++ [c] by simp]
          refine List.chain'_append.mpr ⟨ch1, List.chain'_singleton c, ?_⟩
          intro x hx y hy
          simp only [List.head?_cons, Option.mem_def, Option.some.injEq] at hy
          subst hy
          exact hrel x hx c rfl
        · have hnd' : ((a :: s') ++ c :: t).Nodup := by
            rw [h2] at hnd
            simpa using hnd
          rw [show a :: (s' ++ [c]) = (a :: s') ++ [c] by simp]
          refine List.Nodup.sublist ?_ hnd'
          exact (List.append_sublist_append_left (a :: s')).mpr
            (List.cons_sublist_cons.mpr (List.nil_sublist t))
        · rw [show a :: (s' ++ [c]) = (a :: s') ++ [c] by simp]
          exact (List.getLast?_append_cons (a :: s') c []).trans rfl
    · refine ⟨l ++ [c], ?_, ?_, ?_⟩
      · rw [show a :: (l ++ [c]) = (a :: l) ++ [c] by simp]
        refine List.chain'_append.mpr ⟨hch, List.chain'_singleton c, ?_⟩
        intro x hx y hy
        rw [hlast] at hx
        simp only [List.head?_cons, Option.mem_def, Option.some.injEq] at hx hy
        subst hx
        subst hy
        exact hbc
      · rw [show a :: (l ++ [c]) = (a :: l) ++ [c] by simp]
        exact List.Nodup.append hnd (List.nodup_singleton c)
          (by simpa [List.disjoint_singleton] using hcmem)
      · rw [show a :: (l ++ [c]) = (a :: l) ++ [c] by simp]
        exact (List.getLast?_append_cons (a :: l) c []).trans rfl

/-- C4: for every node N and every other node M reachable from N in the
static link graph, after `generate_topology` N's enumerated topology contains
at least one path ending at M. -/
theorem topology_reaches (m : Mesh)
    (hwf : ∀ nd ∈ m.nodes, ∀ b ∈ nd.links, b ∈ m.nodes.map Node.node_id)
    (n : Node) (hn : n ∈ m.generate_topology.nodes) (dest : NodeId)
    (hne : dest ≠ n.node_id) (hreach : reachable m n.node_id dest) :
    ∃ p ∈ n.topology, p.getLast? = some dest := by
  have hwf' : ∀ a b, b ∈ m.linksOf a → b ∈ m.nodes.map Node.node_id := by
    intro a b hb
    unfold Mesh.linksOf at hb
    cases hfa : m.find? a with
    | none => rw [hfa] at hb; simp at hb
    | some nd =>
      rw [hfa] at hb
      exact hwf nd (List.mem_of_find?_eq_some hfa) b hb
  obtain ⟨n0, hn0, rfl⟩ := mem_generate_topology m n hn
  have hstartmem : n0.node_id ∈ m.nodes.map Node.node_id :=
    List.mem_map_of_mem _ hn0
  have hclosure := generate_routes_closure
    (m.update none "Generating mesh topology...") hwf'
    (m.update none "Generating mesh topology...").nodes.length
    [] n0.node_id [n0.node_id]
    (List.nodup_singleton _)
    (by intro x hx; rw [List.mem_singleton.mp hx]; exact hstartmem)
    (by simp) rfl (by simp)
  obtain ⟨l, hch, hnd, hlast⟩ := reachable_simple_chain m n0.node_id dest hreach
  rcases List.eq_nil_or_concat' l with rfl | ⟨l0, c, rfl⟩
  · exfalso
    simp only [List.getLast?_singleton, Option.some.injEq] at hlast
    exact hne hlast.symm
  · have hc_dest : c = dest := by
      have hl2 : (n0.node_id :: (l0 ++ [c])).getLast? = some c := by
        rw [show n0.node_id :: (l0 ++ [c]) = (n0.node_id :: l0) ++ [c] by simp]
        exact (List.getLast?_append_cons (n0.node_id :: l0) c []).trans rfl
      rw [hl2] at hlast
      injection hlast
    subst hc_dest
    have build : ∀ (l1 : List NodeId) (cc : NodeId),
        List.Chain' (linked m) (n0.node_id :: (l1 ++ [cc])) →
        (n0.node_id :: (l1 ++ [cc])).Nodup →
        (n0.node_id :: (l1 ++ [cc])) ∈
          generate_routes (m.update none "Generating mesh topology...")
            (m.update none "Generating mesh topology...").nodes.length
            [] n0.node_id [n0.node_id] := by
      intro l1
      induction l1 using List.reverseRecOn with
      | nil =>
        intro cc hch1 hnd1
        have hlk : cc ∈ m.linksOf n0.node_id := List.chain'_pair.mp hch1
        have hnotin : cc ∉ [n0.node_id] := by
          intro hmem
          rw [List.mem_singleton.mp hmem] at hnd1
          simp at hnd1
        simpa using hclosure.1 cc hlk hnotin
      | append_singleton l2 d ihb =>
        intro cc hch1 hnd1
        have hsplit : n0.node_id :: ((l2 ++ [d]) ++ [cc]) =
            (n0.node_id :: (l2 ++ [d])) ++ [cc] := by simp
        rw [hsplit] at hch1 hnd1 ⊢
        obtain ⟨chp, _, hrel⟩ := List.chain'_append.mp hch1
        have hmemp := ihb d chp ((List.nodup_append.mp hnd1).1)
        have hprops := hclosure.2 _ hmemp (List.not_mem_nil _)
        have hlastp : (n0.node_id :: (l2 ++ [d])).getLast? = some d := by
          rw [show n0.node_id :: (l2 ++ [d]) = (n0.node_id :: l2) ++ [d] by simp]
          exact (List.getLast?_append_cons (n0.node_id :: l2) d []).trans rfl
        have hlkd : cc ∈ m.linksOf d := by
          have := hrel d (by rw [hlastp]; rfl) cc rfl
          exact this
        have hccnot : cc ∉ n0.node_id :: (l2 ++ [d]) := by
          intro hmem
          have hdisj := (List.nodup_append.mp hnd1).2.2
          exact hdisj hmem (List.mem_singleton_self cc)
        exact hprops.2.2 d hlastp cc hlkd hccnot
    exact ⟨_, build l0 c hch hnd, by
      rw [show n0.node_id :: (l0 ++ [c]) = (n0.node_id :: l0) ++ [c] by simp]
      exact (List.getLast?_append_cons (n0.node_id :: l0) c []).trans rfl⟩

/-- Witness for C4: on the generated triangle, node 2 is reachable from node
0 and node 0's topology indeed contains a path ending at `"2"`. -/
theorem topology_reaches_witness :
    (∀ nd ∈ (mkMesh [("0", ["1", "2"]), ("1", ["0", "2"]), ("2", ["0", "1"])]).nodes,
      ∀ b ∈ nd.links,
        b ∈ (mkMesh [("0", ["1", "2"]), ("1", ["0", "2"]), ("2", ["0", "1"])]).nodes.map
          Node.node_id) ∧
    triNode0 ∈ triMesh.nodes ∧ "2" ≠ triNode0.node_id ∧
    (∃ p ∈ triNode0.topology, p.getLast? = some "2") := by
  refine ⟨by decide, by decide, by decide, ?_⟩
  exact topology_reaches (mkMesh [("0", ["1", "2"]), ("1", ["0", "2"]), ("2", ["0", "1"])])
    (by decide) triNode0 (by decide) "2" (by decide)
    (Relation.ReflTransGen.single
      (show ("2" : NodeId) ∈
          (mkMesh [("0", ["1", "2"]), ("1", ["0", "2"]), ("2", ["0", "1"])]).linksOf "0"
        by decide))

/-! ### Route finding: characterization of `__find_route` outputs -/

theorem find_route_pass_spec (dest : NodeId) (travel : Route)
    (failed : List (NodeId × NodeId)) :
    ∀ (cands : List Route) (length maxLen : Nat) (alt : Route),
      (∀ r, (find_route_pass dest travel failed cands length maxLen alt).1 = some r →
        r ∈ cands ∧ r.getLast? = some dest ∧ in_path failed r = false) ∧
      ((find_route_pass dest travel failed cands length maxLen alt).2.2 = alt ∨
        ((find_route_pass dest travel failed cands length maxLen alt).2.2 ∈ cands ∧
         (find_route_pass dest travel failed cands length maxLen alt).2.2.getLast? =
           some dest ∧
         in_path failed (find_route_pass dest travel failed cands length maxLen alt).2.2 =
           false)) := by
  intro cands
  induction cands with
  | nil =>
    intro length maxLen alt
    exact ⟨fun r hr => by simp [find_route_pass] at hr, Or.inl rfl⟩
  | cons p ps ihp =>
    intro length maxLen alt
    simp only [find_route_pass]
    by_cases hc1 : (p.length == length && p.getLast? == some dest && !(in_path failed p) &&
        ((p.drop 1).all fun x => !(travel.contains x))) = true
    · rw [if_pos hc1]
      simp only [Bool.and_eq_true, beq_iff_eq, Bool.not_eq_true'] at hc1
      constructor
      · intro r hr
        injection hr with hr
        subst hr
        exact ⟨List.mem_cons_self _ _, hc1.1.1.2, hc1.1.2⟩
      · exact Or.inl rfl
    · rw [if_neg hc1]
      by_cases hc2 : (p.length == length && p.getLast? == some dest &&
          !(in_path failed p)) = true
      · rw [if_pos hc2]
        have hc2' := hc2
        simp only [Bool.and_eq_true, beq_iff_eq, Bool.not_eq_true'] at hc2'
        have hrec := ihp length (if maxLen < p.length then p.length else maxLen) p
        constructor
        · intro r hr
          have h := hrec.1 r hr
          exact ⟨List.mem_cons_of_mem _ h.1, h.2.1, h.2.2⟩
        · rcases hrec.2 with h | h
          · right
            rw [h]
            exact ⟨List.mem_cons_self _ _, hc2'.1.2, hc2'.2⟩
          · right
            exact ⟨List.mem_cons_of_mem _ h.1, h.2.1, h.2.2⟩
      · rw [if_neg hc2]
        have hrec := ihp length (if maxLen < p.length then p.length else maxLen) alt
        constructor
        · intro r hr
          have h := hrec.1 r hr
          exact ⟨List.mem_cons_of_mem _ h.1, h.2.1, h.2.2⟩
        · rcases hrec.2 with h | h
          · exact Or.inl h
          · exact Or.inr ⟨List.mem_cons_of_mem _ h.1, h.2.1, h.2.2⟩

theorem find_route_loop_spec (top : List Route) (dest : NodeId) (travel : Route)
    (failed : List (NodeId × NodeId)) :
    ∀ (fuel length maxLen : Nat) (alt : Route),
      (alt = [] ∨ (alt ∈ top ∧ alt.getLast? = some dest ∧ in_path failed alt = false)) →
      (∀ r, (find_route_loop top dest travel failed fuel length maxLen alt).1 = some r →
          r ∈ top ∧ r.getLast? = some dest ∧ in_path failed r = false) ∧
      ((find_route_loop top dest travel failed fuel length maxLen alt).2 = [] ∨
        ((find_route_loop top dest travel failed fuel length maxLen alt).2 ∈ top ∧
         (find_route_loop top dest travel failed fuel length maxLen alt).2.getLast? =
           some dest ∧
         in_path failed
           (find_route_loop top dest travel failed fuel length maxLen alt).2 = false)) := by
  intro fuel
  induction fuel with
  | zero =>
    intro length maxLen alt halt
    exact ⟨fun r hr => by simp [find_route_loop] at hr, halt⟩
  | succ f ih =>
    intro length maxLen alt halt
    simp only [find_route_loop]
    rcases hp : find_route_pass dest travel failed top length maxLen alt with
      ⟨found, maxLen', alt'⟩
    have hpass := find_route_pass_spec dest travel failed top length maxLen alt
    rw [hp] at hpass
    have halt' : alt' = [] ∨ (alt' ∈ top ∧ alt'.getLast? = some dest ∧
        in_path failed alt' = false) := by
      rcases hpass.2 with h | h
      · have h2 : alt' = alt := h
        rw [h2]; exact halt
      · exact Or.inr h
    cases found with
    | some r =>
      dsimp only
      constructor
      · intro r2 hr2
        injection hr2 with hr2
        subst hr2
        exact hpass.1 _ rfl
      · exact halt'
    | none =>
      dsimp only
      by_cases hml : maxLen' < length + 1
      · rw [if_pos hml]
        exact ⟨fun r hr => by simp at hr, halt'⟩
      · rw [if_neg hml]
        exact ih (length + 1) maxLen' alt' halt'

theorem find_route_mem (n : Node) (pkt : Packet)
    (hne : pkt.destination ≠ n.node_id) (r : Route)
    (hr : find_route n pkt = r) (hrne : r ≠ []) :
    r ∈ n.topology ∧ r.getLast? = some pkt.destination ∧
      in_path n.failed r = false := by
  unfold find_route at hr
  rw [if_neg (by simp [hne])] at hr
  rcases hl : find_route_loop n.topology pkt.destination pkt.path n.failed
      (max_path_len n.topology + 2) 2 0 [] with ⟨found, alt⟩
  have hspec := find_route_loop_spec n.topology pkt.destination pkt.path n.failed
    (max_path_len n.topology + 2) 2 0 [] (Or.inl rfl)
  rw [hl] at hspec hr
  cases found with
  | some r' =>
    simp only at hr
    subst hr
    exact hspec.1 r' rfl
  | none =>
    simp only at hr
    by_cases hae : alt.isEmpty = true
    · rw [if_pos hae] at hr
      exact absurd hr.symm hrne
    · rw [if_neg hae] at hr
      by_cases hrep : has_repeat pkt.path = true
      · rw [if_pos hrep] at hr
        exact absurd hr.symm hrne
      · rw [if_neg hrep] at hr
        subst hr
        rcases hspec.2 with h | h
        · exact absurd h (by simpa [List.isEmpty_iff] using hae)
        · exact h

theorem idx_of_get (x : NodeId) :
    ∀ (r : Route) (i : Nat), idx_of x r = some i → r.get? i = some x := by
  intro r
  induction r with
  | nil => intro i h; simp [idx_of] at h
  | cons y ys ih =>
    intro i h
    simp only [idx_of] at h
    by_cases hyx : (y == x) = true
    · rw [if_pos hyx] at h
      injection h with h
      subst h
      simp only [List.get?]
      rw [beq_iff_eq.mp hyx]
    · rw [if_neg hyx] at h
      rcases ho : idx_of x ys with _ | j
      · rw [ho] at h; simp at h
      · rw [ho] at h
        simp only [Option.map_some', Option.some.injEq] at h
        subst h
        simpa only [List.get?] using ih j ho

theorem chain_next_hop (m : Mesh) (r : Route)
    (hch : List.Chain' (linked m) r) (x y : NodeId)
    (h : next_hop? r x = some y) : y ∈ m.linksOf x := by
  unfold next_hop? at h
  rcases hio : idx_of x r with _ | i
  · rw [hio] at h; simp at h
  · rw [hio] at h
    have hx := idx_of_get x r i hio
    obtain ⟨hilt, hxval⟩ := List.get?_eq_some.mp hx
    obtain ⟨hilt2, hyval⟩ := List.get?_eq_some.mp h
    have := List.chain'_iff_get.mp hch i (by omega)
    rw [show r.get ⟨i, by omega⟩ = x from hxval] at this
    rw [show r.get ⟨i + 1, by omega⟩ = y from hyval] at this
    exact this

theorem linksOf_generate_topology (m : Mesh) (x : NodeId) :
    m.generate_topology.linksOf x = m.linksOf x := by
  have hfind : m.generate_topology.find? x = (m.find? x).map fun n =>
      { n with topology := (gen_topology (m.update none
        "Generating mesh topology...") n.node_id) } := by
    unfold Mesh.generate_topology Mesh.find? Mesh.update
    dsimp only
    rw [List.find?_map]
    rfl
  unfold Mesh.linksOf
  rw [hfind]
  rcases m.find? x with _ | nd
  · rfl
  · rfl

/-- C2: after `generate_topology`, every next hop computed during sending —
the id one past the current node's (first) position in a route produced by
route finding — is a directly linked peer of the current node on the
generated mesh, so the `FATAL ERROR: routing link does not exist` test in
`__transmit_packet` cannot fire on such routes. -/
theorem next_hop_linked (m : Mesh) (n : Node)
    (hn : n ∈ m.generate_topology.nodes) (pkt : Packet)
    (hne : pkt.destination ≠ n.node_id) (r : Route) (hr : find_route n pkt = r)
    (x y : NodeId) (hxy : next_hop? r x = some y) :
    ((m.generate_topology.linksOf x).contains y) = true := by
  have hrne : r ≠ [] := by
    intro hnil
    subst hnil
    unfold next_hop? idx_of at hxy
    simp at hxy
  obtain ⟨hmem, _, _⟩ := find_route_mem n pkt hne r hr hrne
  obtain ⟨n0, hn0, hne0⟩ := mem_generate_topology m n hn
  have htop := generate_routes_good (m.update none "Generating mesh topology...")
    n0.node_id (m.update none "Generating mesh topology...").nodes.length
    [] n0.node_id [n0.node_id]
    rfl (List.nodup_singleton _) (List.chain'_singleton _) rfl (by simp)
    (by simp) r (by rw [hne0] at hmem; exact hmem)
  have hchain : List.Chain' (linked m) r := htop.2.2.1
  have hlink : y ∈ m.linksOf x := chain_next_hop m r hchain x y hxy
  rw [linksOf_generate_topology]
  exact List.elem_iff.mpr hlink

/-- Witness for C2: on the generated triangle, the route `["0", "2"]` found
at node 0 for a packet to node 2 gives next hop `"2"` from `"0"`, which the
generated mesh lists as a direct link of node 0. -/
theorem next_hop_linked_witness :
    triNode0 ∈ triMesh.nodes ∧
    ("2" : NodeId) ≠ triNode0.node_id ∧
    find_route triNode0 { packet_type := .data, source := "0", destination := "2" } =
      ["0", "2"] ∧
    next_hop? ["0", "2"] "0" = some "2" ∧
    ((mkMesh [("0", ["1", "2"]), ("1", ["0", "2"]),
        ("2", ["0", "1"])]).generate_topology.linksOf "0").contains "2" = true :=
  ⟨by decide, by decide, by decide, by decide,
    next_hop_linked (mkMesh [("0", ["1", "2"]), ("1", ["0", "2"]), ("2", ["0", "1"])])
      triNode0 (by decide)
      { packet_type := .data, source := "0", destination := "2" }
      (by decide) ["0", "2"] (by decide) "0" "2" (by decide)⟩

/-! ### Route finding: equivalence with the spec-worded scan (claim C5) -/

theorem max_if (a b : Nat) : (if a < b then b else a) = max a b := by
  rcases Nat.lt_or_ge a b with h | h
  · rw [if_pos h, Nat.max_eq_right (Nat.le_of_lt h)]
  · rw [if_neg (Nat.not_lt.mpr h), Nat.max_eq_left h]

theorem foldl_max_len (l : List Route) :
    ∀ a : Nat, l.foldl (fun x p => max x p.length) a =
      max a (l.foldl (fun x p => max x p.length) 0) := by
  induction l with
  | nil => intro a; simp
  | cons p ps ih =>
    intro a
    simp only [List.foldl_cons]
    rw [ih (max a p.length), ih (max 0 p.length), Nat.zero_max, Nat.max_assoc]

theorem max_path_len_ge (top : List Route) (p : Route) (hp : p ∈ top) :
    p.length ≤ max_path_len top := by
  unfold max_path_len
  induction top with
  | nil => simp at hp
  | cons q qs ih =>
    rw [List.foldl_cons, foldl_max_len]
    rcases List.mem_cons.mp hp with rfl | hmem
    · exact le_trans (Nat.le_max_right 0 p.length) (Nat.le_max_left _ _)
    · exact le_trans (ih hmem) (Nat.le_max_right _ _)

theorem getLast?_cons_getD (a : Route) (l : List Route) (d : Route) :
    ((a :: l).getLast?).getD d = (l.getLast?).getD a := by
  induction l generalizing a with
  | nil => rfl
  | cons b l' ih =>
    rw [List.getLast?_cons_cons]
    rcases hlast : (b :: l').getLast? with _ | v
    · simp at hlast
    · simp

theorem bool_false_of_not_true {b : Bool} (h : ¬ b = true) : b = false := by
  rcases Bool.eq_false_or_eq_true b with hb | hb
  · exact absurd hb h
  · exact hb

theorem filter_cons_pos (pr : Route → Bool) (a : Route) (l : List Route)
    (h : pr a = true) : (a :: l).filter pr = a :: l.filter pr :=
  List.filter_cons_of_pos h

theorem filter_cons_neg (pr : Route → Bool) (a : Route) (l : List Route)
    (h : pr a = false) : (a :: l).filter pr = l.filter pr :=
  List.filter_cons_of_neg (by simp [h])

theorem find_cons_pos (pr : Route → Bool) (a : Route) (l : List Route)
    (h : pr a = true) : (a :: l).find? pr = some a :=
  List.find?_cons_of_pos _ h

theorem find_cons_neg (pr : Route → Bool) (a : Route) (l : List Route)
    (h : pr a = false) : (a :: l).find? pr = l.find? pr :=
  List.find?_cons_of_neg _ (by simp [h])

theorem find_route_pass_flat (dest : NodeId) (travel : Route)
    (failed : List (NodeId × NodeId)) :
    ∀ (cands : List Route) (L maxLen : Nat) (alt : Route),
      (find_route_pass dest travel failed cands L maxLen alt).1 =
        (cands.filter fun p => p.length == L && p.getLast? == some dest).find?
          (fun p => !(in_path failed p) &&
            ((p.drop 1).all fun x => !(travel.contains x))) ∧
      ((find_route_pass dest travel failed cands L maxLen alt).1 = none →
        (find_route_pass dest travel failed cands L maxLen alt).2.1 =
          cands.foldl (fun x p => max x p.length) maxLen ∧
        (find_route_pass dest travel failed cands L maxLen alt).2.2 =
          ((((cands.filter fun p => p.length == L && p.getLast? == some dest).filter
              fun p => !(in_path failed p)).getLast?).getD alt)) := by
  intro cands
  induction cands with
  | nil =>
    intro L maxLen alt
    exact ⟨rfl, fun _ => ⟨rfl, rfl⟩⟩
  | cons p ps ihp =>
    intro L maxLen alt
    simp only [find_route_pass]
    rw [max_if]
    by_cases hcand : (p.length == L && p.getLast? == some dest) = true
    · by_cases hip : in_path failed p = false
      · by_cases hdis : ((p.drop 1).all fun x => !(travel.contains x)) = true
        · have hc1 : (p.length == L && p.getLast? == some dest && !(in_path failed p) &&
              ((p.drop 1).all fun x => !(travel.contains x))) = true := by
            rw [hcand, hip, hdis]
            rfl
          rw [if_pos hc1]
          refine ⟨?_, fun h => absurd h (by simp)⟩
          rw [filter_cons_pos (fun q => q.length == L && q.getLast? == some dest) p ps
              hcand,
            find_cons_pos (fun q => !(in_path failed q) &&
              ((q.drop 1).all fun x => !(travel.contains x))) p _
              (by show (!(in_path failed p) &&
                    ((p.drop 1).all fun x => !(travel.contains x))) = true
                  rw [hip, hdis]
                  rfl)]
        · have hdisF : ((p.drop 1).all fun x => !(travel.contains x)) = false :=
            bool_false_of_not_true hdis
          have hc1 : (p.length == L && p.getLast? == some dest && !(in_path failed p) &&
              ((p.drop 1).all fun x => !(travel.contains x))) = false := by
            rw [hdisF]
            simp
          have hc2 : (p.length == L && p.getLast? == some dest &&
              !(in_path failed p)) = true := by
            rw [hcand, hip]
            rfl
          rw [if_neg (by rw [hc1]; exact Bool.false_ne_true), if_pos hc2]
          have hrec := ihp L (max maxLen p.length) p
          refine ⟨?_, ?_⟩
          · rw [filter_cons_pos (fun q => q.length == L && q.getLast? == some dest) p ps
                hcand,
              find_cons_neg (fun q => !(in_path failed q) &&
                ((q.drop 1).all fun x => !(travel.contains x))) p _
                (by show (!(in_path failed p) &&
                      ((p.drop 1).all fun x => !(travel.contains x))) = false
                    rw [hip, hdisF]
                    rfl)]
            exact hrec.1
          · intro hnone
            have h2 := hrec.2 hnone
            refine ⟨by rw [List.foldl_cons]; exact h2.1, ?_⟩
            rw [filter_cons_pos (fun q => q.length == L && q.getLast? == some dest) p ps
                hcand,
              filter_cons_pos (fun q => !(in_path failed q)) p _
                (by show (!(in_path failed p)) = true
                    rw [hip]
                    rfl),
              getLast?_cons_getD]
            exact h2.2
      · have hipT : in_path failed p = true := by
          rcases Bool.eq_false_or_eq_true (in_path failed p) with h | h
          · exact h
          · exact absurd h hip
        have hc1 : (p.length == L && p.getLast? == some dest && !(in_path failed p) &&
            ((p.drop 1).all fun x => !(travel.contains x))) = false := by
          rw [hipT]
          simp
        have hc2 : (p.length == L && p.getLast? == some dest &&
            !(in_path failed p)) = false := by
          rw [hipT]
          simp
        rw [if_neg (by rw [hc1]; exact Bool.false_ne_true), if_neg (by rw [hc2]; exact Bool.false_ne_true)]
        have hrec := ihp L (max maxLen p.length) alt
        refine ⟨?_, ?_⟩
        · rw [filter_cons_pos (fun q => q.length == L && q.getLast? == some dest) p ps
              hcand,
            find_cons_neg (fun q => !(in_path failed q) &&
              ((q.drop 1).all fun x => !(travel.contains x))) p _
              (by show (!(in_path failed p) &&
                    ((p.drop 1).all fun x => !(travel.contains x))) = false
                  rw [hipT]
                  rfl)]
          exact hrec.1
        · intro hnone
          have h2 := hrec.2 hnone
          refine ⟨by rw [List.foldl_cons]; exact h2.1, ?_⟩
          rw [filter_cons_pos (fun q => q.length == L && q.getLast? == some dest) p ps
              hcand,
            filter_cons_neg (fun q => !(in_path failed q)) p _
              (by show (!(in_path failed p)) = false
                  rw [hipT]
                  rfl)]
          exact h2.2
    · have hcf : (p.length == L && p.getLast? == some dest) = false :=
        bool_false_of_not_true hcand
      have hc1 : (p.length == L && p.getLast? == some dest && !(in_path failed p) &&
          ((p.drop 1).all fun x => !(travel.contains x))) = false := by
        rw [hcf]
        simp
      have hc2 : (p.length == L && p.getLast? == some dest &&
          !(in_path failed p)) = false := by
        rw [hcf]
        simp
      rw [if_neg (by rw [hc1]; exact Bool.false_ne_true), if_neg (by rw [hc2]; exact Bool.false_ne_true)]
      have hrec := ihp L (max maxLen p.length) alt
      refine ⟨?_, ?_⟩
      · rw [filter_cons_neg (fun q => q.length == L && q.getLast? == some dest) p ps hcf]
        exact hrec.1
      · intro hnone
        have h2 := hrec.2 hnone
        refine ⟨by rw [List.foldl_cons]; exact h2.1, ?_⟩
        rw [filter_cons_neg (fun q => q.length == L && q.getLast? == some dest) p ps hcf]
        exact h2.2

theorem find_route_loop_flat (top : List Route) (dest : NodeId) (travel : Route)
    (failed : List (NodeId × NodeId)) :
    ∀ (fuel L maxLen : Nat) (alt : Route),
      maxLen ≤ max_path_len top →
      max_path_len top + 2 ≤ fuel + L →
      (find_route_loop top dest travel failed fuel L maxLen alt).1 =
        (cands_from top dest L).find? (fun p => !(in_path failed p) &&
          ((p.drop 1).all fun x => !(travel.contains x))) ∧
      ((find_route_loop top dest travel failed fuel L maxLen alt).1 = none →
        (find_route_loop top dest travel failed fuel L maxLen alt).2 =
          ((((cands_from top dest L).filter fun p => !(in_path failed p)).getLast?).getD
            alt)) := by
  intro fuel
  induction fuel with
  | zero =>
    intro L maxLen alt hm hf
    have hc : cands_from top dest L = [] := by
      unfold cands_from
      rw [show max_path_len top + 1 - L = 0 by omega]
      rfl
    rw [hc]
    exact ⟨by simp [find_route_loop], fun _ => by simp [find_route_loop]⟩
  | succ f ih =>
    intro L maxLen alt hm hf
    simp only [find_route_loop]
    rcases hp : find_route_pass dest travel failed top L maxLen alt with
      ⟨found, maxLen', alt'⟩
    have hpass := find_route_pass_flat dest travel failed top L maxLen alt
    rw [hp] at hpass
    by_cases hLM : L ≤ max_path_len top
    · have hsplit : cands_from top dest L =
          (top.filter fun p => p.length == L && p.getLast? == some dest) ++
            cands_from top dest (L + 1) := by
        unfold cands_from
        rw [show max_path_len top + 1 - L = (max_path_len top - L) + 1 by omega,
          show max_path_len top + 1 - (L + 1) = max_path_len top - L by omega]
        rw [List.range'_succ]
        rw [List.flatMap_cons]
        rfl
      cases found with
      | some r =>
        dsimp only
        constructor
        · rw [hsplit, List.find?_append, ← hpass.1]
          rfl
        · intro h
          exact absurd h (by simp)
      | none =>
        have hrest := hpass.2 rfl
        have hml : maxLen' = max_path_len top := by
          have h1 : maxLen' = top.foldl (fun x p => max x p.length) maxLen := hrest.1
          rw [h1, foldl_max_len]
          unfold max_path_len
          exact Nat.max_eq_right hm
        dsimp only
        by_cases hstop : maxLen' < L + 1
        · rw [if_pos hstop]
          have hempty : cands_from top dest (L + 1) = [] := by
            unfold cands_from
            rw [show max_path_len top + 1 - (L + 1) = 0 by omega]
            rfl
          constructor
          · rw [hsplit, hempty, List.append_nil, ← hpass.1]
          · intro _
            rw [hsplit, hempty, List.append_nil]
            exact hrest.2
        · rw [if_neg hstop]
          have hih := ih (L + 1) maxLen' alt' (by omega) (by omega)
          constructor
          · rw [hsplit, List.find?_append, ← hpass.1, hih.1]
            rfl
          · intro hnone
            have halt2 : alt' = (((top.filter fun p => p.length == L &&
                p.getLast? == some dest).filter fun p =>
                  !(in_path failed p)).getLast?).getD alt := hrest.2
            rw [hih.2 hnone, halt2, hsplit, List.filter_append, List.getLast?_append]
            rcases ((cands_from top dest (L + 1)).filter
                fun p => !(in_path failed p)).getLast? with _ | b
            · rfl
            · rfl
    · have hLM' : max_path_len top < L := Nat.not_le.mp hLM
      have hempty : cands_from top dest L = [] := by
        unfold cands_from
        rw [show max_path_len top + 1 - L = 0 by omega]
        rfl
      have hfilter : (top.filter fun p => p.length == L && p.getLast? == some dest) =
          [] := by
        rw [List.filter_eq_nil_iff]
        intro p hpmem
        have := max_path_len_ge top p hpmem
        simp only [Bool.and_eq_true, beq_iff_eq, not_and]
        intro hlen
        omega
      have hfound : found = none := by
        have h := hpass.1
        rw [hfilter] at h
        exact h
      subst hfound
      have hrest := hpass.2 rfl
      have hml : maxLen' = max_path_len top := by
        have h1 : maxLen' = top.foldl (fun x p => max x p.length) maxLen := hrest.1
        rw [h1, foldl_max_len]
        unfold max_path_len
        exact Nat.max_eq_right hm
      dsimp only
      rw [if_pos (by omega)]
      constructor
      · rw [hempty]
        rfl
      · intro _
        rw [hempty]
        have halt2 : alt' = ((([] : List Route).filter
            fun p => !(in_path failed p)).getLast?).getD alt := by
          have h := hrest.2
          rw [hfilter] at h
          exact h
        exact halt2

/-- C5: for a packet not destined to the current node, `__find_route` equals
the spec-worded scan: candidates are checked in increasing path length
(topology order within a length), the first candidate passing both the
avoidance check and the traveled-path check wins immediately; otherwise the
last candidate passing the avoidance check alone is returned as a fallback,
unless the packet's traveled path contains some node more than once, in
which case the empty route is returned. -/
theorem find_route_eq_spec (n : Node) (pkt : Packet)
    (hne : pkt.destination ≠ n.node_id) :
    find_route n pkt =
      find_route_spec n.topology pkt.destination pkt.path n.failed := by
  unfold find_route find_route_spec
  rw [if_neg (by simp [hne])]
  rcases hl : find_route_loop n.topology pkt.destination pkt.path n.failed
      (max_path_len n.topology + 2) 2 0 [] with ⟨found, alt⟩
  have hflat := find_route_loop_flat n.topology pkt.destination pkt.path n.failed
    (max_path_len n.topology + 2) 2 0 [] (Nat.zero_le _) (by omega)
  rw [hl] at hflat
  cases found with
  | some r =>
    have h1 : ((List.range' 2 (max_path_len n.topology - 1)).flatMap fun len =>
        n.topology.filter fun p =>
          p.length == len && p.getLast? == some pkt.destination).find?
          (fun p => !(in_path n.failed p) &&
            ((p.drop 1).all fun x => !(pkt.path.contains x))) = some r := hflat.1.symm
    dsimp only
    rw [h1]
  | none =>
    have h1 : ((List.range' 2 (max_path_len n.topology - 1)).flatMap fun len =>
        n.topology.filter fun p =>
          p.length == len && p.getLast? == some pkt.destination).find?
          (fun p => !(in_path n.failed p) &&
            ((p.drop 1).all fun x => !(pkt.path.contains x))) = none := hflat.1.symm
    have h2 : alt = ((((List.range' 2 (max_path_len n.topology - 1)).flatMap fun len =>
        n.topology.filter fun p =>
          p.length == len && p.getLast? == some pkt.destination).filter
            fun p => !(in_path n.failed p)).getLast?).getD [] := hflat.2 rfl
    dsimp only
    rw [h1]
    rcases hlast : (((List.range' 2 (max_path_len n.topology - 1)).flatMap fun len =>
        n.topology.filter fun p =>
          p.length == len && p.getLast? == some pkt.destination).filter
            fun p => !(in_path n.failed p)).getLast? with _ | a
    · rw [hlast] at h2
      rw [hlast, show alt = [] from h2]
      rfl
    · rw [hlast] at h2
      have halt : alt = a := h2
      have hane : a ≠ [] := by
        have hmem := List.mem_of_mem_getLast? hlast
        have hmem2 := (List.mem_filter.mp hmem).1
        obtain ⟨len, _, hmem3⟩ := List.mem_flatMap.mp hmem2
        have hcond := (List.mem_filter.mp hmem3).2
        simp only [Bool.and_eq_true, beq_iff_eq] at hcond
        intro hanil
        rw [hanil] at hcond
        simp at hcond
      rw [halt, hlast]
      rw [show a.isEmpty = false by
        rcases a with _ | ⟨x, xs⟩
        · exact absurd rfl hane
        · rfl]
      rfl

/-- Witness for C5: on node 0 of the generated triangle, a fresh data packet
for node 2 satisfies the non-self hypothesis and the scan equivalence. -/
theorem find_route_eq_spec_witness :
    ("2" : NodeId) ≠ triNode0.node_id ∧
    find_route triNode0 { packet_type := .data, source := "0", destination := "2" } =
      find_route_spec triNode0.topology "2" [] [] :=
  ⟨by decide,
    find_route_eq_spec triNode0
      { packet_type := .data, source := "0", destination := "2" } (by decide)⟩

/-! ### The retry loop of `Node.run` (claim C9) -/

theorem find?_node_id (m : Mesh) (nid : NodeId) (n : Node)
    (h : m.find? nid = some n) : n.node_id = nid := by
  unfold Mesh.find? at h
  have h2 := List.find?_some h
  exact beq_iff_eq.mp h2

theorem setNode_find? (m : Mesh) (nid : NodeId) (f : Node → Node)
    (hid : ∀ nd, (f nd).node_id = nd.node_id) (x : NodeId) :
    (m.setNode nid f).find? x =
      (m.find? x).map fun nd => if nd.node_id == nid then f nd else nd := by
  unfold Mesh.setNode Mesh.find?
  dsimp only
  rw [List.find?_map]
  have hp : ((fun nd : Node => nd.node_id == x) ∘
      fun nd : Node => if nd.node_id == nid then f nd else nd) =
      fun nd : Node => nd.node_id == x := by
    funext nd
    by_cases h : (nd.node_id == nid) = true
    · simp only [Function.comp, if_pos h, hid]
    · simp only [Function.comp, if_neg h]
  rw [hp]

theorem setNode_linksOf (m : Mesh) (nid : NodeId) (f : Node → Node)
    (hid : ∀ nd, (f nd).node_id = nd.node_id)
    (hl : ∀ nd, (f nd).links = nd.links) (x : NodeId) :
    (m.setNode nid f).linksOf x = m.linksOf x := by
  unfold Mesh.linksOf
  rw [setNode_find? m nid f hid x]
  rcases m.find? x with _ | nd
  · rfl
  · dsimp only [Option.map_some']
    by_cases h : (nd.node_id == nid) = true
    · rw [if_pos h, hl]
    · rw [if_neg h]

theorem chainb_congr (m m' : Mesh) (h : ∀ x, m'.linksOf x = m.linksOf x) :
    ∀ r : Route, chainb m' r = chainb m r := by
  intro r
  induction r with
  | nil => rfl
  | cons a t ih =>
    cases t with
    | nil => rfl
    | cons b t2 =>
      unfold chainb
      rw [h a, ih]

theorem chainb_get (m : Mesh) :
    ∀ (r : Route) (i : Nat) (a b : NodeId), chainb m r = true →
      r.get? i = some a → r.get? (i + 1) = some b →
      ((m.linksOf a).contains b) = true := by
  intro r
  induction r with
  | nil => intro i a b _ ha _; simp [List.get?] at ha
  | cons x t ih =>
    intro i a b hch ha hb
    cases t with
    | nil => simp [List.get?] at hb
    | cons y t2 =>
      rw [show chainb m (x :: y :: t2) =
        ((m.linksOf x).contains y && chainb m (y :: t2)) from rfl] at hch
      rw [Bool.and_eq_true] at hch
      cases i with
      | zero =>
        simp only [List.get?] at ha hb
        injection ha with ha
        injection hb with hb
        subst ha
        subst hb
        exact hch.1
      | succ j =>
        simp only [List.get?] at ha hb
        exact ih j a b hch.2 ha hb

theorem tail_get (r : Route) (i : Nat) : r.tail.get? i = r.get? (i + 1) := by
  cases r with
  | nil => rfl
  | cons x t => rfl

theorem zip_get :
    ∀ (l l' : Route) (i : Nat) (a b : NodeId), l.get? i = some a →
      l'.get? i = some b → (l.zip l').get? i = some (a, b) := by
  intro l
  induction l with
  | nil => intro l' i a b ha _; simp [List.get?] at ha
  | cons x t ih =>
    intro l' i a b ha hb
    cases l' with
    | nil => simp [List.get?] at hb
    | cons y t2 =>
      cases i with
      | zero =>
        simp only [List.get?] at ha hb
        injection ha with ha
        injection hb with hb
        subst ha
        subst hb
        rfl
      | succ j =>
        simp only [List.get?] at ha hb
        have h2 := ih t2 j a b ha hb
        simpa only [List.zip_cons_cons, List.get?] using h2

theorem in_path_pair (failed : List (NodeId × NodeId)) (r : Route) (i : Nat)
    (a b : NodeId) (hip : in_path failed r = false)
    (ha : r.get? i = some a) (hb : r.get? (i + 1) = some b) :
    failed.contains (a, b) = false := by
  unfold in_path at hip
  rw [List.any_eq_false] at hip
  have hmem : (a, b) ∈ r.zip r.tail :=
    List.get?_mem (zip_get r r.tail i a b ha (by rw [tail_get]; exact hb))
  have hno := hip (a, b) hmem
  rcases hc : failed.contains (a, b) with _ | _
  · rfl
  · exfalso
    have h2 : (failed.contains (a, b) || failed.contains (b, a)) = true := by
      rw [hc]
      rfl
    exact absurd h2 hno

theorem idx_of_mem (x : NodeId) :
    ∀ r : Route, x ∈ r → ∃ i, idx_of x r = some i := by
  intro r
  induction r with
  | nil => intro h; exact absurd h (List.not_mem_nil x)
  | cons y t ih =>
    intro h
    by_cases hy : (y == x) = true
    · exact ⟨0, by unfold idx_of; rw [if_pos hy]⟩
    · have hx : x ∈ t := by
        rcases List.mem_cons.mp h with h1 | h1
        · exact absurd (beq_iff_eq.mpr h1.symm) hy
        · exact h1
      obtain ⟨j, hj⟩ := ih hx
      refine ⟨j + 1, ?_⟩
      unfold idx_of
      rw [if_neg hy, hj]
      rfl

theorem filter_len_mono (p q : NodeId → Bool) (h : ∀ a, p a = true → q a = true) :
    ∀ l : List NodeId, (l.filter p).length ≤ (l.filter q).length := by
  intro l
  induction l with
  | nil => exact Nat.le_refl 0
  | cons a t ih =>
    by_cases hp : p a = true
    · rw [List.filter_cons_of_pos hp, List.filter_cons_of_pos (h a hp)]
      exact Nat.succ_le_succ ih
    · rw [List.filter_cons_of_neg hp]
      by_cases hq : q a = true
      · rw [List.filter_cons_of_pos hq]
        exact Nat.le_trans ih (Nat.le_succ _)
      · rw [List.filter_cons_of_neg hq]
        exact ih

theorem filter_len_lt (p q : NodeId → Bool) (x : NodeId)
    (h : ∀ a, p a = true → q a = true) (hx : p x = false) (hqx : q x = true) :
    ∀ l : List NodeId, x ∈ l → (l.filter p).length < (l.filter q).length := by
  intro l
  induction l with
  | nil => intro hm; exact absurd hm (List.not_mem_nil x)
  | cons a t ih =>
    intro hm
    rcases List.mem_cons.mp hm with h1 | h1
    · subst h1
      rw [List.filter_cons_of_neg (by rw [hx]; exact Bool.false_ne_true),
        List.filter_cons_of_pos hqx]
      exact Nat.lt_succ_of_le (filter_len_mono p q h t)
    · by_cases hp : p a = true
      · rw [List.filter_cons_of_pos hp, List.filter_cons_of_pos (h a hp)]
        exact Nat.succ_lt_succ (ih h1)
      · rw [List.filter_cons_of_neg hp]
        by_cases hq : q a = true
        · rw [List.filter_cons_of_pos hq]
          exact Nat.lt_succ_of_lt (ih h1)
        · rw [List.filter_cons_of_neg hq]
          exact ih h1

theorem contains_append_left (fl : List (NodeId × NodeId)) (pr q : NodeId × NodeId)
    (h : (fl ++ [q]).contains pr = false) : fl.contains pr = false := by
  rcases hc : fl.contains pr with _ | _
  · rfl
  · exfalso
    have hm : pr ∈ fl := List.elem_iff.mp hc
    have hm2 : pr ∈ fl ++ [q] := List.mem_append.mpr (Or.inl hm)
    have h2 : (fl ++ [q]).contains pr = true := List.elem_iff.mpr hm2
    rw [h2] at h
    exact Bool.noConfusion h

theorem avail_le_links (selfId : NodeId) (n : Node) : avail selfId n ≤ n.links.length :=
  Nat.le_trans (List.length_filter_le _ _) (List.Sublist.length_le (List.dedup_sublist _))

theorem good_topology_mem (m : Mesh) (n : Node) (r : Route)
    (h : good_topology m n = true) (hr : r ∈ n.topology) :
    r.head? = some n.node_id ∧ chainb m r = true := by
  unfold good_topology at h
  have h2 := List.all_eq_true.mp h r hr
  rw [Bool.and_eq_true] at h2
  exact ⟨beq_iff_eq.mp h2.1, h2.2⟩

theorem receive_false_nodes (m : Mesh) (nid : NodeId) (pkt : Packet) (g : Bool) :
    (receive_packet m nid pkt g).2 = false →
    (receive_packet m nid pkt g).1.nodes = m.nodes := by
  unfold receive_packet
  split
  · intro _; rfl
  · split
    · split
      · intro h; simp at h
      · intro h; simp at h
    · intro _; rfl

theorem find?_nodes_eq (m m' : Mesh) (h : m'.nodes = m.nodes) (x : NodeId) :
    m'.find? x = m.find? x := by
  unfold Mesh.find?
  rw [h]

theorem linksOf_nodes_eq (m m' : Mesh) (h : m'.nodes = m.nodes) (x : NodeId) :
    m'.linksOf x = m.linksOf x := by
  unfold Mesh.linksOf
  rw [find?_nodes_eq m m' h x]

theorem route_next_hop (m : Mesh) (selfId dest : NodeId) (n : Node)
    (hfind : m.find? selfId = some n)
    (r : Route) (hmem : selfId ∈ r) (hlast : r.getLast? = some dest)
    (hch : chainb m r = true) (hdne : (dest == selfId) = false) :
    ∃ i nh, idx_of selfId r = some i ∧ r.get? (i + 1) = some nh ∧
      r.get? i = some selfId ∧ nh ∈ n.links := by
  obtain ⟨i, hi⟩ := idx_of_mem selfId r hmem
  have hgi := idx_of_get selfId r i hi
  obtain ⟨hilt, _⟩ := List.get?_eq_some.mp hgi
  by_cases hsucc : i + 1 < r.length
  · obtain ⟨nh, hnh⟩ : ∃ nh, r.get? (i + 1) = some nh :=
      ⟨r.get ⟨i + 1, hsucc⟩, List.get?_eq_some.mpr ⟨hsucc, rfl⟩⟩
    have hcont := chainb_get m r i selfId nh hch hgi hnh
    have hmeml : nh ∈ m.linksOf selfId := List.elem_iff.mp hcont
    have hlinks : m.linksOf selfId = n.links := by
      unfold Mesh.linksOf
      rw [hfind]
    rw [hlinks] at hmeml
    exact ⟨i, nh, hi, hnh, hgi, hmeml⟩
  · exfalso
    have hieq : i = r.length - 1 := by omega
    have hlast2 : r.getLast? = r.get? (r.length - 1) := List.getLast?_eq_get? r
    rw [hlast, ← hieq, hgi] at hlast2
    injection hlast2 with hlast2
    rw [hlast2] at hdne
    simp at hdne

theorem transmit_fail_spec (m : Mesh) (selfId target : NodeId) (pkt : Packet)
    (n : Node) (hfind : m.find? selfId = some n)
    (hne : (target == selfId) = false)
    (hlink : ((m.linksOf selfId).contains target) = true) :
    (transmit_packet m selfId target pkt).2 = true ∨
    ((transmit_packet m selfId target pkt).2 = false ∧
      (transmit_packet m selfId target pkt).1.find? selfId =
        some { n with failed := n.failed ++ [(selfId, target)] } ∧
      ∀ x, (transmit_packet m selfId target pkt).1.linksOf x = m.linksOf x) := by
  have hid := find?_node_id m selfId n hfind
  have hidf : ∀ nd : Node,
      ((fun nd : Node => { nd with failed := nd.failed ++ [(selfId, target)] }) nd).node_id
        = nd.node_id := fun _ => rfl
  have hlf : ∀ nd : Node,
      ((fun nd : Node => { nd with failed := nd.failed ++ [(selfId, target)] }) nd).links
        = nd.links := fun _ => rfl
  have hbeq : (n.node_id == selfId) = true := beq_iff_eq.mpr hid
  have hupd : ∀ x, (m.update (some selfId) "Attempting to send packet").linksOf x
      = m.linksOf x := fun _ => rfl
  have hufind : (m.update (some selfId) "Attempting to send packet").find? selfId
      = some n := hfind
  unfold transmit_packet
  rw [if_neg (by rw [hne]; exact Bool.false_ne_true)]
  dsimp only
  rw [hupd selfId, hlink]
  rw [if_neg (by decide : ¬((!true) = true))]
  by_cases hls : ((m.update (some selfId) "Attempting to send packet").link_status
      selfId target) = true
  · rw [if_neg (by rw [hls]; decide)]
    rcases hr : receive_packet (m.update (some selfId) "Attempting to send packet")
        target pkt false with ⟨m2, b⟩
    cases b with
    | true =>
      exact Or.inl rfl
    | false =>
      refine Or.inr ⟨rfl, ?_, ?_⟩
      · have hnodes : m2.nodes = m.nodes := by
          have h2 := receive_false_nodes
            (m.update (some selfId) "Attempting to send packet") target pkt false
          rw [hr] at h2
          exact h2 rfl
        show ((m2.setNode selfId fun nd =>
          { nd with failed := nd.failed ++ [(selfId, target)] }).find? selfId) = _
        rw [setNode_find? m2 selfId _ hidf selfId,
          find?_nodes_eq m m2 hnodes selfId, hfind]
        dsimp only [Option.map_some']
        rw [if_pos hbeq]
      · intro x
        have hnodes : m2.nodes = m.nodes := by
          have h2 := receive_false_nodes
            (m.update (some selfId) "Attempting to send packet") target pkt false
          rw [hr] at h2
          exact h2 rfl
        show ((m2.setNode selfId fun nd =>
          { nd with failed := nd.failed ++ [(selfId, target)] }).linksOf x) = _
        rw [setNode_linksOf m2 selfId _ hidf hlf x, linksOf_nodes_eq m m2 hnodes x]
  · have hls2 : ((m.update (some selfId) "Attempting to send packet").link_status
        selfId target) = false := bool_false_of_not_true hls
    rw [if_pos (by rw [hls2]; rfl)]
    refine Or.inr ⟨rfl, ?_, ?_⟩
    · show (((m.update (some selfId) "Attempting to send packet").setNode selfId fun nd =>
        { nd with failed := nd.failed ++ [(selfId, target)] }).find? selfId) = _
      rw [setNode_find? _ selfId _ hidf selfId, hufind]
      dsimp only [Option.map_some']
      rw [if_pos hbeq]
    · intro x
      show (((m.update (some selfId) "Attempting to send packet").setNode selfId fun nd =>
        { nd with failed := nd.failed ++ [(selfId, target)] }).linksOf x) = _
      rw [setNode_linksOf _ selfId _ hidf hlf x]
      exact hupd x

theorem send_fail_spec (m : Mesh) (selfId : NodeId) (pkt : Packet) (n : Node)
    (hfind : m.find? selfId = some n)
    (htopo : good_topology m n = true)
    (hpath : pkt.path.getLast? = some selfId)
    (hdest : (pkt.destination == selfId) = false)
    (hroute : (pkt.routing = [] ∧ find_route n pkt ≠ []) ∨ route_ok m selfId pkt = true) :
    (send_packet m selfId pkt).2.2 = Flow.ok true ∨
    ((send_packet m selfId pkt).2.2 = Flow.ok false ∧
      (send_packet m selfId pkt).2.1.path = pkt.path ∧
      (send_packet m selfId pkt).2.1.destination = pkt.destination ∧
      (send_packet m selfId pkt).2.1.packet_type = pkt.packet_type ∧
      ∃ nh, nh ∈ n.links ∧
        (send_packet m selfId pkt).1.find? selfId =
          some { n with failed := n.failed ++ [(selfId, nh)] } ∧
        (∀ x, (send_packet m selfId pkt).1.linksOf x = m.linksOf x) ∧
        (in_path n.failed pkt.routing = false →
          n.failed.contains (selfId, nh) = false)) := by
  have hid := find?_node_id m selfId n hfind
  unfold send_packet
  rw [hfind]
  dsimp only
  rw [hpath]
  dsimp only
  by_cases hre : pkt.routing.isEmpty = true
  · have hempty : pkt.routing = [] := List.isEmpty_iff.mp hre
    have hfrne : find_route n pkt ≠ [] := by
      rcases hroute with ⟨_, h⟩ | h
      · exact h
      · exfalso
        unfold route_ok at h
        rw [hempty] at h
        simp at h
    rw [if_pos hre]
    have hdne : pkt.destination ≠ n.node_id := by
      rw [hid]
      intro heq
      rw [heq] at hdest
      simp at hdest
    obtain ⟨hmemtop, hlastr, hip⟩ :=
      find_route_mem n pkt hdne (find_route n pkt) rfl hfrne
    obtain ⟨hhead, hch⟩ := good_topology_mem m n (find_route n pkt) htopo hmemtop
    have hmem : selfId ∈ find_route n pkt := by
      rw [hid] at hhead
      exact List.mem_of_mem_head? (Option.mem_def.mpr hhead)
    obtain ⟨i, nh, hi, hnh, hgi, hnhl⟩ := route_next_hop m selfId pkt.destination n
      hfind (find_route n pkt) hmem hlastr hch hdest
    rw [hi]
    dsimp only
    rw [hnh]
    dsimp only
    by_cases hnhs : (nh == selfId) = true
    · left
      have ht : (transmit_packet m selfId nh
          { pkt with routing := find_route n pkt }).2 = true := by
        unfold transmit_packet
        rw [if_pos hnhs]
      rw [ht]
    · have hnhs2 : (nh == selfId) = false := bool_false_of_not_true hnhs
      have hcont : ((m.linksOf selfId).contains nh) = true := by
        unfold Mesh.linksOf
        rw [hfind]
        exact List.elem_iff.mpr hnhl
      have hspec := transmit_fail_spec m selfId nh
        { pkt with routing := find_route n pkt } n hfind hnhs2 hcont
      rcases htr : transmit_packet m selfId nh { pkt with routing := find_route n pkt }
        with ⟨tm, tb⟩
      rw [htr] at hspec
      dsimp only at hspec
      cases tb with
      | true => exact Or.inl rfl
      | false =>
        rcases hspec with h | ⟨_, hfq, hlq⟩
        · exact absurd h (by decide)
        · refine Or.inr ⟨rfl, rfl, rfl, rfl, nh, hnhl, hfq, hlq, ?_⟩
          intro _
          exact in_path_pair n.failed (find_route n pkt) i selfId nh hip hgi hnh
  · have hrne : pkt.routing ≠ [] := by
      intro h
      rw [h] at hre
      exact hre rfl
    have hro : route_ok m selfId pkt = true := by
      rcases hroute with ⟨h1, _⟩ | h2
      · exact absurd h1 hrne
      · exact h2
    unfold route_ok at hro
    rw [Bool.and_eq_true, Bool.and_eq_true] at hro
    obtain ⟨⟨hcont0, hlastb⟩, hchb⟩ := hro
    have hmem : selfId ∈ pkt.routing := List.elem_iff.mp hcont0
    have hlastr : pkt.routing.getLast? = some pkt.destination := beq_iff_eq.mp hlastb
    rw [if_neg hre]
    obtain ⟨i, nh, hi, hnh, hgi, hnhl⟩ := route_next_hop m selfId pkt.destination n
      hfind pkt.routing hmem hlastr hchb hdest
    rw [hi]
    dsimp only
    rw [hnh]
    dsimp only
    by_cases hnhs : (nh == selfId) = true
    · left
      have ht : (transmit_packet m selfId nh
          { pkt with routing := pkt.routing }).2 = true := by
        unfold transmit_packet
        rw [if_pos hnhs]
      rw [ht]
    · have hnhs2 : (nh == selfId) = false := bool_false_of_not_true hnhs
      have hcont : ((m.linksOf selfId).contains nh) = true := by
        unfold Mesh.linksOf
        rw [hfind]
        exact List.elem_iff.mpr hnhl
      have hspec := transmit_fail_spec m selfId nh
        { pkt with routing := pkt.routing } n hfind hnhs2 hcont
      rcases htr : transmit_packet m selfId nh { pkt with routing := pkt.routing }
        with ⟨tm, tb⟩
      rw [htr] at hspec
      dsimp only at hspec
      cases tb with
      | true => exact Or.inl rfl
      | false =>
        rcases hspec with h | ⟨_, hfq, hlq⟩
        · exact absurd h (by decide)
        · refine Or.inr ⟨rfl, rfl, rfl, rfl, nh, hnhl, hfq, hlq, ?_⟩
          intro hfresh
          exact in_path_pair n.failed pkt.routing i selfId nh hfresh hgi hnh

theorem process_eq_send (m : Mesh) (selfId : NodeId) (pkt : Packet)
    (hdest : (pkt.destination == selfId) = false) :
    process_packet m selfId pkt = send_packet m selfId pkt := by
  unfold process_packet
  rcases hpt : pkt.packet_type with _ | _
  · dsimp only
    rw [if_neg (by rw [hdest]; exact Bool.false_ne_true)]
  · dsimp only
    rw [if_neg (by rw [hdest]; exact Bool.false_ne_true)]

theorem process_delivers (m : Mesh) (selfId : NodeId) (pkt : Packet)
    (hdest : (pkt.destination == selfId) = true) :
    (process_packet m selfId pkt).2.2 = Flow.ok true := by
  unfold process_packet
  rcases hpt : pkt.packet_type with _ | _
  · dsimp only
    rw [if_pos hdest]
  · dsimp only
    rw [if_pos hdest]

theorem avail_mono (selfId : NodeId) (n n2 : Node) (pr : NodeId × NodeId)
    (hfl : n2.failed = n.failed ++ [pr]) (hlk : n2.links = n.links) :
    avail selfId n2 ≤ avail selfId n := by
  unfold avail
  rw [hfl, hlk]
  refine filter_len_mono _ _ ?_ n.links.dedup
  intro a ha
  have h1 : (n.failed ++ [pr]).contains (selfId, a) = false := by
    rcases hc : (n.failed ++ [pr]).contains (selfId, a) with _ | _
    · rfl
    · rw [hc] at ha
      exact absurd ha (by decide)
  have h2 := contains_append_left n.failed (selfId, a) pr h1
  rw [h2]
  rfl

theorem avail_strict (selfId : NodeId) (n n2 : Node) (nh : NodeId)
    (hfl : n2.failed = n.failed ++ [(selfId, nh)]) (hlk : n2.links = n.links)
    (hmem : nh ∈ n.links) (hfr : n.failed.contains (selfId, nh) = false) :
    avail selfId n2 < avail selfId n := by
  unfold avail
  rw [hfl, hlk]
  refine filter_len_lt _ _ nh ?_ ?_ ?_ n.links.dedup (List.mem_dedup.mpr hmem)
  · intro a ha
    have h1 : (n.failed ++ [(selfId, nh)]).contains (selfId, a) = false := by
      rcases hc : (n.failed ++ [(selfId, nh)]).contains (selfId, a) with _ | _
      · rfl
      · rw [hc] at ha
        exact absurd ha (by decide)
    have h2 := contains_append_left n.failed (selfId, a) (selfId, nh) h1
    rw [h2]
    rfl
  · have hm2 : (selfId, nh) ∈ n.failed ++ [(selfId, nh)] :=
      List.mem_append.mpr (Or.inr (List.mem_singleton.mpr rfl))
    have h2 : (n.failed ++ [(selfId, nh)]).contains (selfId, nh) = true :=
      List.elem_iff.mpr hm2
    rw [h2]
    rfl
  · rw [hfr]
    rfl

theorem good_topology_abs (m m' : Mesh) (n n2 : Node)
    (htp : n2.topology = n.topology) (hid2 : n2.node_id = n.node_id)
    (hl : ∀ x, m'.linksOf x = m.linksOf x) (h : good_topology m n = true) :
    good_topology m' n2 = true := by
  unfold good_topology at h ⊢
  rw [htp, hid2]
  rw [List.all_eq_true] at h ⊢
  intro r hr
  have h2 := h r hr
  rw [Bool.and_eq_true] at h2 ⊢
  refine ⟨h2.1, ?_⟩
  rw [chainb_congr m m' hl r]
  exact h2.2

theorem process_fail_aux (m : Mesh) (selfId : NodeId) (pkt : Packet) (n : Node)
    (hfind : m.find? selfId = some n)
    (htopo : good_topology m n = true)
    (hpath : pkt.path.getLast? = some selfId)
    (hdest : (pkt.destination == selfId) = false)
    (hroute : (pkt.routing = [] ∧ find_route n pkt ≠ []) ∨ route_ok m selfId pkt = true) :
    (process_packet m selfId pkt).2.2 = Flow.ok true ∨
    ((process_packet m selfId pkt).2.2 = Flow.ok false ∧
      (process_packet m selfId pkt).2.1.path = pkt.path ∧
      (process_packet m selfId pkt).2.1.destination = pkt.destination ∧
      (process_packet m selfId pkt).2.1.packet_type = pkt.packet_type ∧
      ∃ nh, nh ∈ n.links ∧
        (process_packet m selfId pkt).1.find? selfId =
          some { n with failed := n.failed ++ [(selfId, nh)] } ∧
        (∀ x, (process_packet m selfId pkt).1.linksOf x = m.linksOf x) ∧
        (in_path n.failed pkt.routing = false →
          n.failed.contains (selfId, nh) = false)) := by
  rw [process_eq_send m selfId pkt hdest]
  exact send_fail_spec m selfId pkt n hfind htopo hpath hdest hroute

theorem run_loop_fuel (selfId : NodeId) :
    ∀ (fuel : Nat) (m : Mesh) (pkt : Packet) (n : Node),
      m.find? selfId = some n →
      good_topology m n = true →
      pkt.path.getLast? = some selfId →
      (pkt.destination == selfId) = false →
      ((pkt.routing = [] ∧ find_route n pkt ≠ []) ∨ route_ok m selfId pkt = true) →
      avail selfId n + 2 + (if in_path n.failed pkt.routing = true then 1 else 0) ≤
        fuel →
      ∃ b, (run_loop selfId fuel m pkt).2.2 = Flow.ok b := by
  intro fuel
  induction fuel with
  | zero =>
    intro m pkt n _ _ _ _ _ hfuel
    omega
  | succ f ih =>
    intro m pkt n hfind htopo hpath hdest hroute hfuel
    have hid := find?_node_id m selfId n hfind
    have hspec := process_fail_aux m selfId pkt n hfind htopo hpath hdest hroute
    unfold run_loop
    rcases hpr : process_packet m selfId pkt with ⟨m1, pkt1, fl⟩
    rw [hpr] at hspec
    dsimp only at hspec
    rcases hspec with hok | ⟨hfl, hpath1, hdest1, _, nh, hnhl, hfind1, hlinks1, hfresh⟩
    · subst hok
      exact ⟨true, rfl⟩
    · subst hfl
      dsimp only
      rw [hfind1]
      dsimp only
      set n2 : Node := { n with failed := n.failed ++ [(selfId, nh)] } with hn2
      have hfl2 : n2.failed = n.failed ++ [(selfId, nh)] := by rw [hn2]
      have hlk2 : n2.links = n.links := by rw [hn2]
      have htp2 : n2.topology = n.topology := by rw [hn2]
      have hid2 : n2.node_id = n.node_id := by rw [hn2]
      by_cases hez : (find_route n2 pkt1).isEmpty = true
      · rw [if_pos hez]
        exact ⟨false, rfl⟩
      · rw [if_neg hez]
        have hrne2 : find_route n2 pkt1 ≠ [] := by
          intro h
          rw [h] at hez
          exact hez rfl
        have hdne2 : pkt1.destination ≠ n2.node_id := by
          rw [hid2, hdest1, hid]
          intro heq
          rw [heq] at hdest
          simp at hdest
        obtain ⟨hmemtop2, hlast2, hip2⟩ :=
          find_route_mem n2 pkt1 hdne2 (find_route n2 pkt1) rfl hrne2
        rw [htp2] at hmemtop2
        obtain ⟨hhead2, hch2⟩ := good_topology_mem m n _ htopo hmemtop2
        have hmem2 : selfId ∈ find_route n2 pkt1 := by
          rw [hid] at hhead2
          exact List.mem_of_mem_head? (Option.mem_def.mpr hhead2)
        refine ih m1 { pkt1 with routing := find_route n2 pkt1 } n2 hfind1 ?_ ?_ ?_ ?_ ?_
        · exact good_topology_abs m m1 n n2 htp2 hid2 hlinks1 htopo
        · show pkt1.path.getLast? = some selfId
          rw [hpath1]
          exact hpath
        · show (pkt1.destination == selfId) = false
          rw [hdest1]
          exact hdest
        · refine Or.inr ?_
          have hc1 : (find_route n2 pkt1).contains selfId = true :=
            List.elem_iff.mpr hmem2
          have hc2 : ((find_route n2 pkt1).getLast? == some pkt1.destination) = true := by
            rw [hlast2]
            exact beq_self_eq_true _
          have hc3 : chainb m1 (find_route n2 pkt1) = true := by
            rw [chainb_congr m m1 hlinks1]
            exact hch2
          unfold route_ok
          dsimp only
          rw [hc1, hc2, hc3]
          rfl
        · show avail selfId n2 + 2 +
            (if in_path n2.failed (find_route n2 pkt1) = true then 1 else 0) ≤ f
          rw [hip2]
          rw [if_neg Bool.false_ne_true]
          by_cases hstale : in_path n.failed pkt.routing = true
          · rw [if_pos hstale] at hfuel
            have hle := avail_mono selfId n n2 (selfId, nh) hfl2 hlk2
            omega
          · rw [if_neg hstale] at hfuel
            have hlt := avail_strict selfId n n2 nh hfl2 hlk2 hnhl
              (hfresh (bool_false_of_not_true hstale))
            omega

/-- C9 counterexample: the retry loop of `Node.run` does not always transmit
successfully or give up.  On the mesh of two linkless nodes, the buffered
packet at node 0 (whose routing assignment is empty and for which route
finding can find nothing) makes the loop crash — the uncaught Python
ValueError of `[].index` — with the very fuel `Node.run` uses
(`links + 3 = 3` here), instead of reaching a success or give-up outcome. -/
theorem run_loop_retry_crash :
    ((isoMeshP.find? "0").map fun nd => (nd.buffer.head?, nd.links.length)) =
      some (some isoPkt, 0) ∧
    (run_loop "0" (0 + 3) isoMeshP isoPkt).2.2 = Flow.crash := by
  refine ⟨by decide, by decide⟩

/-- C9 (amended): the per-tick retry loop of `Node.run` terminates with a
normal outcome — transmitting successfully or giving up after finitely many
failed attempts — for every data or acknowledgement packet, provided the
node's stored topology routes start at the node and follow existing links,
the packet's traveled path ends at the node, its routing assignment is
either empty or usable (it passes through the node, ends at the packet's
destination, and follows existing links), and either the packet is addressed
to the node itself or a route is available on the first attempt.  Each
failed transmission appends the attempted link to the node's avoidance
memory and a recomputed route never traverses an avoided link, so the
supply of distinct usable links (`avail`) shrinks and `Node.run`'s fuel
`links + 3` suffices.  Without the route-availability precondition the loop
can instead crash on an empty route (`run_loop_retry_crash`). -/
theorem run_loop_terminates (m : Mesh) (selfId : NodeId) (pkt : Packet) (n : Node)
    (hfind : m.find? selfId = some n)
    (htopo : good_topology m n = true)
    (hpath : pkt.path.getLast? = some selfId)
    (hroute : pkt.routing = [] ∨ route_ok m selfId pkt = true)
    (hguard : pkt.destination = selfId ∨ pkt.routing ≠ [] ∨ find_route n pkt ≠ []) :
    ∃ b, (run_loop selfId (n.links.length + 3) m pkt).2.2 = Flow.ok b := by
  by_cases hdest : (pkt.destination == selfId) = true
  · have hfl := process_delivers m selfId pkt hdest
    refine ⟨true, ?_⟩
    unfold run_loop
    rcases hpr : process_packet m selfId pkt with ⟨m1, p1, fl⟩
    rw [hpr] at hfl
    dsimp only at hfl
    subst hfl
    rfl
  · have hdestf : (pkt.destination == selfId) = false := bool_false_of_not_true hdest
    refine run_loop_fuel selfId (n.links.length + 3) m pkt n hfind htopo hpath
      hdestf ?_ ?_
    · rcases hroute with h | h
      · refine Or.inl ⟨h, ?_⟩
        rcases hguard with hg | hg | hg
        · exact absurd (beq_iff_eq.mpr hg) hdest
        · exact absurd h hg
        · exact hg
      · exact Or.inr h
    · have h1 := avail_le_links selfId n
      by_cases hip : in_path n.failed pkt.routing = true
      · rw [if_pos hip]
        omega
      · rw [if_neg hip]
        omega

/-- Witness for C9: on the triangle with the freshly generated data packet
buffered at node 0, the hypotheses of `run_loop_terminates` hold and the
retry loop reaches a normal outcome. -/
theorem run_loop_terminates_witness :
    triMeshP.find? "0" = some triP0 ∧
    good_topology triMeshP triP0 = true ∧
    triPkt.path.getLast? = some "0" ∧
    (triPkt.routing = [] ∨ route_ok triMeshP "0" triPkt = true) ∧
    (triPkt.destination = "0" ∨ triPkt.routing ≠ [] ∨ find_route triP0 triPkt ≠ []) ∧
    ∃ b, (run_loop "0" (triP0.links.length + 3) triMeshP triPkt).2.2 = Flow.ok b :=
  ⟨by decide, by decide, by decide, by decide, by decide,
    run_loop_terminates triMeshP "0" triPkt triP0 (by decide) (by decide) (by decide)
      (by decide) (by decide)⟩

end MeshSim
